import Mathlib

/-!
# Verification of the youtube-dl monitoring core

A shallow embedding of the persistent store (`src/src/utils.js`, class
`Storage`), the download queue (`src/server.js`, class `DownloadQueue`),
and the monitoring scheduler (`src/src/scheduler.js`, class
`MonitoringScheduler`), followed by theorems settling the specified
properties of the orchestration triad.

Conventions of the embedding:
* JS objects become Lean structures; nullable fields become `Option`.
* `this.data.videos` is a JS object keyed by external video id; it is
  modelled as an insertion-ordered association list `List (String × Video)`
  (property lookup is first match; the code only inserts absent keys, so
  keys are unique in every state the code produces).
* Nondeterministic inputs of the code (fresh ids built from `Date.now()`,
  ISO timestamps from `new Date().toISOString()`) are passed as explicit
  parameters.
* JS truthiness on strings is modelled explicitly: a string field is falsy
  exactly when it is `""`, a nullable field when it is `none` or `some ""`.
-/

/-- The `status` field of a download record: `'pending' | 'downloading' |
'completed' | 'failed'` in the JS source. The spec calls `downloading`
the `active` state. -/
inductive DlStatus where
  | pending
  | downloading
  | completed
  | failed
deriving DecidableEq

/-- A channel record as created by `Storage.addChannel` (a *Source* in the
spec's data model). -/
structure Channel where
  id : String
  url : String
  name : Option String
  enabled : Bool
  lastCheckAt : Option String
  createdAt : String
deriving DecidableEq

/-- A video record as created by `Storage.addVideo` (an *Item* in the
spec's data model). -/
structure Video where
  id : String
  channelId : String
  title : String
  url : String
  thumbnail : String
  duration : Option Nat
  uploadDate : Option String
  discoveredAt : String
deriving DecidableEq

/-- A download record as created by `Storage.createDownload` (a *Task* in
the spec's data model). -/
structure Download where
  id : String
  videoId : String
  status : DlStatus
  quality : String
  filePath : Option String
  retryCount : Nat
  errorMessage : Option String
  startedAt : Option String
  completedAt : Option String
deriving DecidableEq

/-- `this.data` of the `Storage` class: the whole persisted document. -/
structure StorageData where
  channels : List Channel
  videos : List (String × Video)
  downloads : List Download
deriving DecidableEq

/-- The video data handed to `Storage.addVideo` by the scheduler; it is
the shape produced by `fetchChannelVideosBasic` in `src/src/utils.js`. -/
structure FetchedVideo where
  id : String
  title : String
  url : String
  thumbnail : String
  duration : Option Nat
  uploadDate : Option String
deriving DecidableEq

/-- JS `x || null` on a nullable number: `0`, `null` and `undefined` are
falsy and collapse to `null`. -/
def jsOrNullNat : Option Nat → Option Nat
  | some 0 => none
  | some (n + 1) => some (n + 1)
  | none => none

/-- JS `x || null` on a nullable string: `""`, `null` and `undefined` are
falsy and collapse to `null`. -/
def jsOrNullStr : Option String → Option String
  | some "" => none
  | some s => some s
  | none => none

/-- Mutating the object returned by `Array.prototype.find` in place:
apply `f` to the first element satisfying `p`, keep the rest. -/
def updateFirst (p : α → Bool) (f : α → α) : List α → List α
  | [] => []
  | a :: as => if p a then f a :: as else a :: updateFirst p f as

/-- `Storage.addChannel(url, name)` (src/src/utils.js lines 371-390):
return the id of an existing channel with the same url, otherwise append
a fresh enabled channel and return its id. `newId` stands for
`'ch_' + Date.now()` and `now` for the creation timestamp. -/
def addChannel (s : StorageData) (url : String) (name : Option String)
    (newId now : String) : StorageData × String :=
  match s.channels.find? (fun ch => ch.url == url) with
  | some existing => (s, existing.id)
  | none =>
    ({ s with channels := s.channels ++
        [{ id := newId, url := url, name := jsOrNullStr name, enabled := true,
           lastCheckAt := none, createdAt := now }] }, newId)

/-- `Storage.getChannels(enabledOnly)` (src/src/utils.js lines 395-400). -/
def getChannels (s : StorageData) (enabledOnly : Bool) : List Channel :=
  if enabledOnly then s.channels.filter (fun ch => ch.enabled) else s.channels

/-- `Storage.updateChannelLastCheck(id)` (src/src/utils.js lines 424-430). -/
def updateChannelLastCheck (s : StorageData) (id : String) (now : String) :
    StorageData :=
  let channels' := updateFirst (fun ch => ch.id == id)
    (fun ch => { ch with lastCheckAt := some now }) s.channels
  { s with channels := channels' }

/-- `Storage.toggleChannel(id, enabled)` (src/src/utils.js lines
405-411). -/
def toggleChannel (s : StorageData) (id : String) (enabled : Bool) :
    StorageData :=
  let channels' := updateFirst (fun ch => ch.id == id)
    (fun ch => { ch with enabled := enabled }) s.channels
  { s with channels := channels' }

/-- `Storage.removeChannel(id)` (src/src/utils.js lines 416-419). -/
def removeChannel (s : StorageData) (id : String) : StorageData :=
  { s with channels := s.channels.filter (fun ch => ch.id != id) }

/-- `Storage.videoExists(videoId)` (src/src/utils.js lines 460-462):
`!!this.data.videos[videoId]`. -/
def videoExists (s : StorageData) (videoId : String) : Bool :=
  (s.videos.find? (fun kv => kv.1 == videoId)).isSome

/-- `Storage.addVideo(channelId, videoData)` (src/src/utils.js lines
439-455): insert under the external id unless the key is already present;
return whether the video was new. -/
def addVideo (s : StorageData) (channelId : String) (vd : FetchedVideo)
    (now : String) : StorageData × Bool :=
  match s.videos.find? (fun kv => kv.1 == vd.id) with
  | some _ => (s, false)
  | none =>
    ({ s with videos := s.videos ++
        [(vd.id,
          { id := vd.id, channelId := channelId, title := vd.title,
            url := vd.url, thumbnail := vd.thumbnail,
            duration := jsOrNullNat vd.duration,
            uploadDate := jsOrNullStr vd.uploadDate,
            discoveredAt := now })] }, true)

/-- `Storage.createDownload(videoId, quality)` (src/src/utils.js lines
478-502): if a download for the same video is already `pending` or
`downloading`, return its id and change nothing; otherwise append a fresh
`pending` record. `newId` stands for the generated
`'dl_' + Date.now() + '_' + random` id. -/
def createDownload (s : StorageData) (videoId quality newId : String) :
    StorageData × String :=
  match s.downloads.find? (fun dl => dl.videoId == videoId &&
      (dl.status == DlStatus.pending || dl.status == DlStatus.downloading)) with
  | some existing => (s, existing.id)
  | none =>
    ({ s with downloads := s.downloads ++
        [{ id := newId, videoId := videoId, status := DlStatus.pending,
           quality := quality, filePath := none, retryCount := 0,
           errorMessage := none, startedAt := none, completedAt := none }] },
     newId)

/-- `Storage.getPendingDownloads(limit)` (src/src/utils.js lines 507-511). -/
def getPendingDownloads (s : StorageData) (limit : Nat) : List Download :=
  (s.downloads.filter (fun dl => dl.status == DlStatus.pending)).take limit

/-- The `data` patch object passed to `Storage.updateDownloadStatus`; a
field is `none` when the key is absent from the patch. The call sites in
`DownloadQueue` only ever pass string values for these three keys. -/
structure StatusPatch where
  filePath : Option String := none
  errorMessage : Option String := none
  completedAt : Option String := none
deriving DecidableEq

/-- `Object.assign(download, data)` for the patches actually passed. -/
def applyPatch (dl : Download) (p : StatusPatch) : Download :=
  { dl with
    filePath := p.filePath.or dl.filePath,
    errorMessage := p.errorMessage.or dl.errorMessage,
    completedAt := p.completedAt.or dl.completedAt }

/-- The timestamp bookkeeping at the end of `updateDownloadStatus`:
`startedAt` is set on entering `downloading` when still falsy, and
`completedAt` is overwritten on reaching `completed` or `failed`. -/
def setTimestamps (dl : Download) (status : DlStatus) (now : String) :
    Download :=
  let dl' := if status == DlStatus.downloading && (dl.startedAt.getD "" == "")
    then { dl with startedAt := some now } else dl
  if status == DlStatus.completed || status == DlStatus.failed
    then { dl' with completedAt := some now } else dl'

/-- `Storage.updateDownloadStatus(id, status, data)` (src/src/utils.js
lines 516-531): find the download by id (no-op when absent), set its
status, apply the patch, then stamp `startedAt` / `completedAt`. -/
def updateDownloadStatus (s : StorageData) (id : String) (status : DlStatus)
    (patch : StatusPatch) (now : String) : StorageData :=
  let downloads' := updateFirst (fun dl => dl.id == id)
    (fun dl => setTimestamps (applyPatch { dl with status := status } patch)
      status now) s.downloads
  { s with downloads := downloads' }

/-- `Storage.retryFailedDownload(id)` (src/src/utils.js lines 536-546):
whenever the download exists and `retryCount < 2`, move it to `pending`,
increment `retryCount` and clear the error. Note: the code does **not**
check that the download is currently `failed`. -/
def retryFailedDownload (s : StorageData) (id : String) :
    StorageData × Bool :=
  match s.downloads.find? (fun dl => dl.id == id) with
  | some dl =>
    if dl.retryCount < 2 then
      let reset := fun (d : Download) =>
        { d with status := DlStatus.pending, retryCount := d.retryCount + 1,
                 errorMessage := none }
      let downloads' := updateFirst (fun d => d.id == id) reset s.downloads
      ({ s with downloads := downloads' }, true)
    else (s, false)
  | none => (s, false)

/-- `DownloadQueue._handleFailure(downloadId, videoId, errorMessage)`
(src/server.js lines 1023-1065). The code looks the failed download up in
`getPendingDownloads(100)` — i.e. among the records whose status is
`'pending'` — and returns after logging "下载记录不存在" when it is not
found there; otherwise it retries (`retryCount < 2`) or marks the record
terminally failed with the error message truncated to 500 characters. -/
def handleFailure (s : StorageData) (downloadId : String)
    (errorMessage : String) (now : String) : StorageData :=
  let download := getPendingDownloads s 100
  match download.find? (fun d => d.id == downloadId) with
  | none => s
  | some currentDownload =>
    if currentDownload.retryCount < 2 then
      (retryFailedDownload s downloadId).1
    else
      updateDownloadStatus s downloadId DlStatus.failed
        { errorMessage := some (errorMessage.take 500),
          completedAt := some now } now

/-- `DownloadQueue.enqueue(videoId, quality)` (src/server.js lines
769-779): its effect on the store is exactly `Storage.createDownload`,
whose id it returns. The queue-side wake-up of `_processQueue` is part of
the queue transition system below. -/
def enqueue (s : StorageData) (videoId quality newId : String) :
    StorageData × String :=
  createDownload s videoId quality newId

/-- Steps 2-4 of `MonitoringScheduler.checkChannel(channel)`
(src/src/scheduler.js lines 122-189), with the listing fetched by
`fetchChannelVideosBasic` — an external yt-dlp invocation — supplied as
the parameter `videos`: filter out videos already known to the store
(the whole filter runs against the state before any insertion, as in the
source), then for each new one `addVideo` + `enqueue`, and finally
`updateChannelLastCheck`. `dlIdOf` supplies the generated download id per
video id, `quality` is `config.defaultQuality`. -/
def checkChannelStep (s : StorageData) (ch : Channel)
    (videos : List FetchedVideo) (quality now : String)
    (dlIdOf : String → String) : StorageData :=
  let newVideos := videos.filter (fun v => !(videoExists s v.id))
  let s1 := newVideos.foldl
    (fun st v =>
      (enqueue ((addVideo st ch.id v now).1) v.id quality (dlIdOf v.id)).1) s
  updateChannelLastCheck s1 ch.id now

/-- The sequential channel loop of
`MonitoringScheduler.checkAllChannelsNow` (src/src/scheduler.js lines
85-100). `outcome` is the result of the external listing for each
channel: a rejection (`Except.error`) models `fetchChannelVideosBasic`
throwing. A failing channel only increments `stats.errors` and the loop
continues; a successful one applies `checkChannelStep` and adds its
new-video count. The accumulator is `(store, stats.newVideos,
stats.errors)`. -/
def runChannelLoop (outcome : Channel → Except Unit (List FetchedVideo))
    (quality now : String) (dlIdOf : Channel → String → String) :
    StorageData × Nat × Nat → List Channel → StorageData × Nat × Nat
  | acc, [] => acc
  | (s, newVideos, errors), ch :: rest =>
    match outcome ch with
    | Except.error _ =>
      runChannelLoop outcome quality now dlIdOf (s, newVideos, errors + 1) rest
    | Except.ok videos =>
      let newCount := (videos.filter (fun v => !(videoExists s v.id))).length
      runChannelLoop outcome quality now dlIdOf
        (checkChannelStep s ch videos quality now (dlIdOf ch),
         newVideos + newCount, errors) rest

/-- One full scan pass of `checkAllChannelsNow` (src/src/scheduler.js
lines 59-115) over the snapshot `getChannels(true)` taken at entry. -/
def checkAllChannelsNowPass (s : StorageData)
    (outcome : Channel → Except Unit (List FetchedVideo))
    (quality now : String) (dlIdOf : Channel → String → String) :
    StorageData × Nat × Nat :=
  runChannelLoop outcome quality now dlIdOf (s, 0, 0) (getChannels s true)

/-- A JSON document, as produced by `JSON.stringify(this.data, null, 2)`
and consumed by `JSON.parse` in `Storage.save` / `Storage.init`
(src/src/utils.js lines 298-362). String escaping and whitespace are
below the granularity of this model: a persisted file holds a JSON tree. -/
inductive Json where
  | null
  | bool (b : Bool)
  | num (n : Nat)
  | str (s : String)
  | arr (elems : List Json)
  | obj (fields : List (String × Json))

/-- Encoding of a nullable string field. -/
def encodeOptStr : Option String → Json
  | none => Json.null
  | some s => Json.str s

/-- Encoding of a nullable number field. -/
def encodeOptNat : Option Nat → Json
  | none => Json.null
  | some n => Json.num n

/-- The status strings used by the source. -/
def statusToString : DlStatus → String
  | DlStatus.pending => "pending"
  | DlStatus.downloading => "downloading"
  | DlStatus.completed => "completed"
  | DlStatus.failed => "failed"

/-- Parsing a status string back. -/
def stringToStatus : String → Option DlStatus
  | "pending" => some DlStatus.pending
  | "downloading" => some DlStatus.downloading
  | "completed" => some DlStatus.completed
  | "failed" => some DlStatus.failed
  | _ => none

/-- JSON shape of a channel record. -/
def encodeChannel (c : Channel) : Json :=
  Json.obj [("id", Json.str c.id), ("url", Json.str c.url),
    ("name", encodeOptStr c.name), ("enabled", Json.bool c.enabled),
    ("lastCheckAt", encodeOptStr c.lastCheckAt),
    ("createdAt", Json.str c.createdAt)]

/-- JSON shape of a video record. -/
def encodeVideo (v : Video) : Json :=
  Json.obj [("id", Json.str v.id), ("channelId", Json.str v.channelId),
    ("title", Json.str v.title), ("url", Json.str v.url),
    ("thumbnail", Json.str v.thumbnail),
    ("duration", encodeOptNat v.duration),
    ("uploadDate", encodeOptStr v.uploadDate),
    ("discoveredAt", Json.str v.discoveredAt)]

/-- JSON shape of a download record. -/
def encodeDownload (d : Download) : Json :=
  Json.obj [("id", Json.str d.id), ("videoId", Json.str d.videoId),
    ("status", Json.str (statusToString d.status)),
    ("quality", Json.str d.quality),
    ("filePath", encodeOptStr d.filePath),
    ("retryCount", Json.num d.retryCount),
    ("errorMessage", encodeOptStr d.errorMessage),
    ("startedAt", encodeOptStr d.startedAt),
    ("completedAt", encodeOptStr d.completedAt)]

/-- JSON shape of the whole persisted document (§6 of the design:
top-level keys `channels`, `videos`, `downloads`). -/
def encodeStorage (s : StorageData) : Json :=
  Json.obj [("channels", Json.arr (s.channels.map encodeChannel)),
    ("videos", Json.obj (s.videos.map (fun kv => (kv.1, encodeVideo kv.2)))),
    ("downloads", Json.arr (s.downloads.map encodeDownload))]

/-- Decoding of a nullable string field. -/
def decodeOptStr : Json → Option (Option String)
  | Json.null => some none
  | Json.str s => some (some s)
  | _ => none

/-- Decoding of a nullable number field. -/
def decodeOptNat : Json → Option (Option Nat)
  | Json.null => some none
  | Json.num n => some (some n)
  | _ => none

/-- `JSON.parse` of one channel record, on the shape `Storage.save`
writes. -/
def decodeChannel : Json → Option Channel
  | Json.obj [("id", Json.str id), ("url", Json.str url), ("name", nm),
      ("enabled", Json.bool en), ("lastCheckAt", lc),
      ("createdAt", Json.str ca)] =>
    match decodeOptStr nm, decodeOptStr lc with
    | some name, some lastCheckAt =>
      some { id := id, url := url, name := name, enabled := en,
             lastCheckAt := lastCheckAt, createdAt := ca }
    | _, _ => none
  | _ => none

/-- `JSON.parse` of one video record, on the shape `Storage.save`
writes. -/
def decodeVideo : Json → Option Video
  | Json.obj [("id", Json.str id), ("channelId", Json.str chId),
      ("title", Json.str title), ("url", Json.str url),
      ("thumbnail", Json.str th), ("duration", du), ("uploadDate", ud),
      ("discoveredAt", Json.str da)] =>
    match decodeOptNat du, decodeOptStr ud with
    | some duration, some uploadDate =>
      some { id := id, channelId := chId, title := title, url := url,
             thumbnail := th, duration := duration,
             uploadDate := uploadDate, discoveredAt := da }
    | _, _ => none
  | _ => none

/-- `JSON.parse` of one download record, on the shape `Storage.save`
writes. -/
def decodeDownload : Json → Option Download
  | Json.obj [("id", Json.str id), ("videoId", Json.str vid),
      ("status", Json.str st), ("quality", Json.str q), ("filePath", fp),
      ("retryCount", Json.num rc), ("errorMessage", em), ("startedAt", sa),
      ("completedAt", ca)] =>
    match stringToStatus st, decodeOptStr fp, decodeOptStr em,
        decodeOptStr sa, decodeOptStr ca with
    | some status, some filePath, some errorMessage, some startedAt,
        some completedAt =>
      some { id := id, videoId := vid, status := status, quality := q,
             filePath := filePath, retryCount := rc,
             errorMessage := errorMessage, startedAt := startedAt,
             completedAt := completedAt }
    | _, _, _, _, _ => none
  | _ => none

/-- Decoding a JSON array element-wise; any failing element fails the
whole parse, as `JSON.parse` would on malformed input. -/
def decodeArray {β : Type} (dec : Json → Option β) : List Json → Option (List β)
  | [] => some []
  | j :: js =>
    match dec j, decodeArray dec js with
    | some b, some bs => some (b :: bs)
    | _, _ => none

/-- Decoding the keyed video entries of the `videos` object. -/
def decodeVideoEntries : List (String × Json) → Option (List (String × Video))
  | [] => some []
  | kv :: kvs =>
    match decodeVideo kv.2, decodeVideoEntries kvs with
    | some v, some vs => some ((kv.1, v) :: vs)
    | _, _ => none

/-- `JSON.parse` of the whole persisted document, on the shape
`Storage.save` writes. -/
def decodeStorage : Json → Option StorageData
  | Json.obj [("channels", Json.arr cs), ("videos", Json.obj vs),
      ("downloads", Json.arr ds)] =>
    match decodeArray decodeChannel cs, decodeVideoEntries vs,
        decodeArray decodeDownload ds with
    | some channels, some videos, some downloads =>
      some { channels := channels, videos := videos, downloads := downloads }
    | _, _, _ => none
  | _ => none

/-- The crash-recovery loop of `Storage.init` (src/src/utils.js lines
316-327): every download in status `downloading` is reset to `pending`. -/
def resetDownloading (s : StorageData) : StorageData :=
  let downloads' := s.downloads.map (fun dl =>
    if dl.status == DlStatus.downloading
      then { dl with status := DlStatus.pending } else dl)
  { s with downloads := downloads' }

/-- The data-migration loop of `Storage.init` (src/src/utils.js lines
329-341): a video whose `id` field is falsy (absent/empty) gets the map
key as its id. -/
def migrateVideos (s : StorageData) : StorageData :=
  let videos' := s.videos.map (fun kv =>
    if kv.2.id == "" then (kv.1, { kv.2 with id := kv.1 }) else kv)
  { s with videos := videos' }

/-- `Storage.save()` (src/src/utils.js lines 358-362): the document
written to the file is the JSON encoding of `this.data`. The
temp-file-then-rename step is filesystem behaviour below the granularity
of this model. -/
def save (s : StorageData) : Json := encodeStorage s

/-- `Storage.init()` on an existing, parseable file (src/src/utils.js
lines 298-353): parse the file, reset `downloading` downloads to
`pending` (saving again if any was reset), then migrate videos with a
falsy `id` (saving again if any was flagged). Returns the in-memory data
together with the file content after init. -/
def init (file : Json) : Option (StorageData × Json) :=
  (decodeStorage file).map (fun d =>
    let afterReset := resetDownloading d
    let resetCount :=
      (d.downloads.filter (fun dl => dl.status == DlStatus.downloading)).length
    let migrated := d.videos.any (fun kv => kv.2.id == "")
    let r := migrateVideos afterReset
    let file1 := if resetCount > 0 then save afterReset else file
    let file2 := if migrated then save r else file1
    (r, file2))

/-- `save()` followed by `init()` on the written file: the reproduced
in-memory data. -/
def roundTrip (s : StorageData) : Option StorageData :=
  (init (save s)).map (fun rf => rf.1)

/-! ## Supporting lemmas -/

/-- `updateFirst` rewrites the first element matched by `p` with `f`; when
`f` preserves `p`, the first `p`-match of the result is the image of the
first `p`-match of the input. -/
theorem find?_updateFirst (p : α → Bool) (f : α → α) (l : List α)
    (hf : ∀ a, p a = true → p (f a) = true) :
    (updateFirst p f l).find? p = (l.find? p).map f := by
  induction l with
  | nil => rfl
  | cons a as ih =>
    by_cases hp : p a = true
    · rw [updateFirst, if_pos hp, List.find?_cons_of_pos _ (hf a hp),
        List.find?_cons_of_pos _ hp]
      rfl
    · have hp' : p a = false := by simpa using hp
      rw [updateFirst, if_neg (by simp [hp']), List.find?_cons_of_neg _ (by simp [hp']),
        List.find?_cons_of_neg _ (by simp [hp']), ih]

/-! ## C1 — the retry bound

The spec's retry policy says a failing task re-enters `pending` with
`retryCount` incremented up to `MAX_RETRIES` (2) times, then ends
terminally `failed`. The code's failure path cannot do either: when a
download fails, its status is `downloading` (set by `_downloadNext`
before executing), but `_handleFailure` searches for it in
`getPendingDownloads(100)`, a list of `pending`-status records only — so
the record is never found and the handler returns having changed
nothing. -/

/-- C1: whenever every download with the failing id has status
`downloading` (which the execution path guarantees: `_downloadNext` sets
the status before invoking yt-dlp), `_handleFailure` is a no-op: the task
is neither returned to `pending`, nor retried, nor marked `failed`. -/
theorem handleFailure_is_noop_on_failing_download (s : StorageData)
    (id msg now : String)
    (h : ∀ dl ∈ s.downloads, dl.id = id → dl.status = DlStatus.downloading) :
    handleFailure s id msg now = s := by
  have hfind : (getPendingDownloads s 100).find? (fun d => d.id == id) = none := by
    apply List.find?_eq_none.mpr
    intro x hx hbeq
    have hx1 : x ∈ s.downloads.filter (fun dl => dl.status == DlStatus.pending) :=
      List.mem_of_mem_take hx
    obtain ⟨hmem, hp⟩ := List.mem_filter.mp hx1
    have hid : x.id = id := by simpa using hbeq
    have hdl := h x hmem hid
    have hpend : x.status = DlStatus.pending := by simpa using hp
    rw [hdl] at hpend
    exact absurd hpend (by decide)
  simp only [handleFailure, hfind]

/-- A download the worker just marked `downloading` and whose execution
is about to fail. -/
def c1Dl : Download :=
  { id := "dl_1", videoId := "v1", status := DlStatus.downloading,
    quality := "720p", filePath := none, retryCount := 0,
    errorMessage := none, startedAt := some "t0", completedAt := none }

/-- A store holding the single download of the C1 witness. -/
def c1Store : StorageData :=
  { channels := [], videos := [], downloads := [c1Dl] }

/-- C1 witness: the hypothesis holds at a concrete failing download and
the failure handler indeed changes nothing. -/
theorem handleFailure_is_noop_on_failing_download_witness :
    (∀ dl ∈ c1Store.downloads, dl.id = "dl_1" →
      dl.status = DlStatus.downloading)
    ∧ handleFailure c1Store "dl_1" "yt-dlp exit 1" "t1" = c1Store :=
  ⟨by decide,
   handleFailure_is_noop_on_failing_download c1Store "dl_1" "yt-dlp exit 1"
     "t1" (by decide)⟩

/-! ## C6 — state transitions are not forward-only

`Storage.retryFailedDownload` guards only on `retryCount < 2`, never on
the current status, and the endpoint `POST /api/downloads/:downloadId/retry`
passes an arbitrary id straight to it: a `completed` download is moved
back to `pending` with `retryCount` incremented, a transition the spec
(and the function's own name and doc comment, "重试失败的下载") rules
out. -/

/-- C6: a `completed` download with `retryCount < 2` is moved back to
`pending` with `retryCount + 1` by `retryFailedDownload`, which reports
success. -/
theorem retryFailedDownload_moves_completed_to_pending (s : StorageData)
    (id : String) (dl : Download)
    (hfind : s.downloads.find? (fun d => d.id == id) = some dl)
    (hst : dl.status = DlStatus.completed)
    (hrc : dl.retryCount < 2) :
    (retryFailedDownload s id).2 = true ∧
    (retryFailedDownload s id).1.downloads.find? (fun d => d.id == id) =
      some { dl with status := DlStatus.pending,
                     retryCount := dl.retryCount + 1,
                     errorMessage := none } := by
  have hpres : ∀ d : Download, ((fun d => d.id == id) d) = true →
      ((fun d => d.id == id)
        ({ d with status := DlStatus.pending,
                  retryCount := d.retryCount + 1,
                  errorMessage := none } : Download)) = true := by
    intro d hd
    simpa using hd
  simp only [retryFailedDownload, hfind]
  rw [if_pos hrc]
  refine ⟨rfl, ?_⟩
  dsimp only
  rw [find?_updateFirst _ _ _ hpres, hfind]
  rfl

/-- The `completed` download of the C6 witness. -/
def c6Dl : Download :=
  { id := "dl_9", videoId := "v9", status := DlStatus.completed,
    quality := "720p", filePath := some "downloads/a.mp4", retryCount := 0,
    errorMessage := none, startedAt := some "t0", completedAt := some "t1" }

/-- A store holding one `completed` download. -/
def c6Store : StorageData :=
  { channels := [], videos := [], downloads := [c6Dl] }

/-- C6 witness: the hypotheses hold at a concrete `completed` download,
which the retry operation moves back to `pending`. -/
theorem retryFailedDownload_moves_completed_to_pending_witness :
    c6Store.downloads.find? (fun d => d.id == "dl_9") = some c6Dl
    ∧ c6Dl.status = DlStatus.completed
    ∧ c6Dl.retryCount < 2
    ∧ ((retryFailedDownload c6Store "dl_9").2 = true ∧
       (retryFailedDownload c6Store "dl_9").1.downloads.find?
         (fun d => d.id == "dl_9") =
         some { c6Dl with status := DlStatus.pending,
                          retryCount := c6Dl.retryCount + 1,
                          errorMessage := none }) :=
  ⟨by decide, rfl, by decide,
   retryFailedDownload_moves_completed_to_pending c6Store "dl_9" c6Dl
     (by decide) rfl (by decide)⟩

/-! ## C10 — source registration is idempotent on URI -/

/-- C10: `addChannel` with the url of an existing channel returns that
channel's id and leaves the whole store — in particular every field of
the existing channel — unchanged. -/
theorem addChannel_idempotent_on_url (s : StorageData) (url : String)
    (name : Option String) (newId now : String) (ch : Channel)
    (hfind : s.channels.find? (fun c => c.url == url) = some ch) :
    addChannel s url name newId now = (s, ch.id) := by
  unfold addChannel
  rw [hfind]

/-- The registered channel of the C10 witness. -/
def c10Ch : Channel :=
  { id := "ch_1", url := "https://youtube.com/@x", name := some "X",
    enabled := false, lastCheckAt := some "t0", createdAt := "t-1" }

/-- A store holding one registered channel. -/
def c10Store : StorageData :=
  { channels := [c10Ch], videos := [], downloads := [] }

/-- C10 witness: re-registering a known url is a no-op returning the
existing id. -/
theorem addChannel_idempotent_on_url_witness :
    c10Store.channels.find? (fun c => c.url == "https://youtube.com/@x") =
      some c10Ch
    ∧ addChannel c10Store "https://youtube.com/@x" (some "Y") "ch_2" "t5" =
      (c10Store, "ch_1") :=
  ⟨by decide,
   addChannel_idempotent_on_url c10Store "https://youtube.com/@x" (some "Y")
     "ch_2" "t5" c10Ch (by decide)⟩

/-! ## C2 — at most one pending/active task per item

The development for this claim sits at the end of the file: it proves
the exclusivity invariant over the store states the running program can
actually produce. Only the counted quantity is defined here. -/

/-- The number of downloads for `videoId` in state `pending` or
`downloading` — the quantity the exclusivity invariant bounds by 1. -/
def countPendingActive (s : StorageData) (videoId : String) : Nat :=
  (s.downloads.filter (fun dl => dl.videoId == videoId &&
    (dl.status == DlStatus.pending ||
     dl.status == DlStatus.downloading))).length

/-! ## Persistence round-trip lemmas -/

/-- Nullable strings decode back from their encoding. -/
theorem decodeOptStr_encodeOptStr (x : Option String) :
    decodeOptStr (encodeOptStr x) = some x := by cases x <;> rfl

/-- Nullable numbers decode back from their encoding. -/
theorem decodeOptNat_encodeOptNat (x : Option Nat) :
    decodeOptNat (encodeOptNat x) = some x := by cases x <;> rfl

/-- Status strings parse back to the status. -/
theorem stringToStatus_statusToString (st : DlStatus) :
    stringToStatus (statusToString st) = some st := by cases st <;> rfl

/-- A channel record decodes back from its encoding. -/
theorem decodeChannel_encodeChannel (c : Channel) :
    decodeChannel (encodeChannel c) = some c := by
  rcases c with ⟨id, url, name, en, lc, ca⟩
  cases name <;> cases lc <;> rfl

/-- A video record decodes back from its encoding. -/
theorem decodeVideo_encodeVideo (v : Video) :
    decodeVideo (encodeVideo v) = some v := by
  rcases v with ⟨id, chId, title, url, th, du, ud, da⟩
  cases du <;> cases ud <;> rfl

/-- A download record decodes back from its encoding. -/
theorem decodeDownload_encodeDownload (d : Download) :
    decodeDownload (encodeDownload d) = some d := by
  rcases d with ⟨id, vid, st, q, fp, rc, em, sa, ca⟩
  cases st <;> cases fp <;> cases em <;> cases sa <;> cases ca <;> rfl

/-- Element-wise decoding inverts element-wise encoding. -/
theorem decodeArray_map {β : Type} (enc : β → Json) (dec : Json → Option β)
    (h : ∀ b, dec (enc b) = some b) (l : List β) :
    decodeArray dec (l.map enc) = some l := by
  induction l with
  | nil => rfl
  | cons a as ih => simp [decodeArray, h, ih]

/-- The keyed video entries decode back from their encoding. -/
theorem decodeVideoEntries_map (l : List (String × Video)) :
    decodeVideoEntries (l.map (fun kv => (kv.1, encodeVideo kv.2))) =
      some l := by
  induction l with
  | nil => rfl
  | cons kv rest ih =>
    simp [decodeVideoEntries, decodeVideo_encodeVideo, ih]

/-- The whole persisted document decodes back from its encoding: the
JSON layer loses nothing. -/
theorem decodeStorage_encodeStorage (s : StorageData) :
    decodeStorage (encodeStorage s) = some s := by
  rcases s with ⟨cs, vs, ds⟩
  simp only [encodeStorage, decodeStorage]
  rw [decodeArray_map encodeChannel decodeChannel decodeChannel_encodeChannel,
    decodeVideoEntries_map,
    decodeArray_map encodeDownload decodeDownload decodeDownload_encodeDownload]

/-- `migrateVideos` changes nothing when every entry whose video id is
falsy already carries its key as id. -/
theorem migrateVideos_eq_self (t : StorageData)
    (ht : ∀ kv ∈ t.videos, kv.2.id = "" → kv.1 = kv.2.id) :
    migrateVideos t = t := by
  have hmap : ∀ l : List (String × Video),
      (∀ kv ∈ l, kv.2.id = "" → kv.1 = kv.2.id) →
      l.map (fun kv => if kv.2.id == ""
        then (kv.1, { kv.2 with id := kv.1 }) else kv) = l := by
    intro l hl
    induction l with
    | nil => rfl
    | cons kv rest ih =>
      rcases kv with ⟨k, v⟩
      have h1 : v.id = "" → k = v.id := hl (k, v) (by simp)
      have hkv : (if v.id == "" then (k, { v with id := k }) else (k, v)) =
          (k, v) := by
        by_cases he : (v.id == "") = true
        · have he' : v.id = "" := by simpa using he
          rw [if_pos he, h1 he']
        · rw [if_neg he]
      rw [List.map_cons]
      dsimp only
      rw [hkv, ih (fun a ha => hl a (List.mem_cons_of_mem _ ha))]
  rcases t with ⟨cs, vs, ds⟩
  unfold migrateVideos
  dsimp only
  rw [hmap vs ht]

/-- `resetDownloading` changes nothing when no download is in
`downloading` state. -/
theorem resetDownloading_eq_self (t : StorageData)
    (ht : ∀ dl ∈ t.downloads, dl.status ≠ DlStatus.downloading) :
    resetDownloading t = t := by
  have hmap : ∀ l : List Download,
      (∀ dl ∈ l, dl.status ≠ DlStatus.downloading) →
      l.map (fun dl => if dl.status == DlStatus.downloading
        then { dl with status := DlStatus.pending } else dl) = l := by
    intro l hl
    induction l with
    | nil => rfl
    | cons dl rest ih =>
      have h1 : (dl.status == DlStatus.downloading) = false :=
        beq_eq_false_iff_ne.mpr (hl dl (by simp))
      rw [List.map_cons]
      rw [if_neg (by simp [h1]), ih (fun a ha => hl a (List.mem_cons_of_mem _ ha))]
  rcases t with ⟨cs, vs, ds⟩
  unfold resetDownloading
  dsimp only
  rw [hmap ds ht]

/-- Evaluation of `init` on a file that parses to `d`. -/
theorem init_eq_of_decode (file : Json) (d : StorageData)
    (hdec : decodeStorage file = some d) :
    init file = some (migrateVideos (resetDownloading d),
      if d.videos.any (fun kv => kv.2.id == "")
        then save (migrateVideos (resetDownloading d))
        else if 0 < (d.downloads.filter (fun dl =>
            dl.status == DlStatus.downloading)).length
          then save (resetDownloading d) else file) := by
  unfold init
  rw [hdec]
  rfl

/-! ## C4 — save/init round-trip

`init` forcibly resets `downloading` records to `pending` (the crash
recovery of C3), so a snapshot holding an in-flight download does not
round-trip identically: everything else is reproduced exactly. -/

/-- An in-flight download. -/
def c4Dl : Download :=
  { id := "dl_1", videoId := "v1", status := DlStatus.downloading,
    quality := "720p", filePath := none, retryCount := 1,
    errorMessage := none, startedAt := some "t0", completedAt := none }

/-- A store snapshot holding one in-flight download. -/
def c4State : StorageData :=
  { channels := [], videos := [], downloads := [c4Dl] }

/-- C4 counterexample: `save()` then `init()` does not reproduce the
state with an in-flight (`downloading`) task exactly — the task comes
back as `pending`. -/
theorem roundTrip_not_identity :
    roundTrip c4State ≠ some c4State
    ∧ roundTrip c4State = some (resetDownloading c4State) := by
  constructor
  · decide
  · decide

/-- C4 (amended): on any store state whose video entries carry their key
as id (true of every state the code builds), `save()` followed by
`init()` reproduces all channels, videos and downloads exactly, except
that `downloading` downloads come back `pending`; when no download is in
`downloading` state the round-trip is the identity. -/
theorem roundTrip_resets_downloading (s : StorageData)
    (hid : ∀ kv ∈ s.videos, kv.2.id = kv.1) :
    roundTrip s = some (resetDownloading s)
    ∧ ((∀ dl ∈ s.downloads, dl.status ≠ DlStatus.downloading) →
        roundTrip s = some s) := by
  have hmig : migrateVideos (resetDownloading s) = resetDownloading s := by
    apply migrateVideos_eq_self
    intro kv hkv _
    exact (hid kv hkv).symm
  have key : roundTrip s = some (resetDownloading s) := by
    unfold roundTrip
    rw [init_eq_of_decode (save s) s (decodeStorage_encodeStorage s)]
    simp only [Option.map_some']
    rw [hmig]
  exact ⟨key, fun hnd => by rw [key, resetDownloading_eq_self s hnd]⟩

/-- The stored video of the C4 witness. -/
def c4WVideo : Video :=
  { id := "v1", channelId := "ch_1", title := "a", url := "u1",
    thumbnail := "th1", duration := some 10, uploadDate := none,
    discoveredAt := "t0" }

/-- A store with one video and one completed download: nothing is
in-flight, so the round-trip reproduces it identically. -/
def c4WState : StorageData :=
  { channels := [], videos := [("v1", c4WVideo)],
    downloads := [{ id := "dl_1", videoId := "v1",
                    status := DlStatus.completed, quality := "720p",
                    filePath := some "downloads/a.mp4", retryCount := 0,
                    errorMessage := none, startedAt := some "t1",
                    completedAt := some "t2" }] }

/-- C4 witness: the id hypothesis holds at a concrete state and the
round-trip behaves as the amended claim states. -/
theorem roundTrip_resets_downloading_witness :
    (∀ kv ∈ c4WState.videos, kv.2.id = kv.1)
    ∧ roundTrip c4WState = some (resetDownloading c4WState)
    ∧ ((∀ dl ∈ c4WState.downloads, dl.status ≠ DlStatus.downloading) →
        roundTrip c4WState = some c4WState) :=
  ⟨by decide, (roundTrip_resets_downloading c4WState (by decide)).1,
   (roundTrip_resets_downloading c4WState (by decide)).2⟩

/-! ## C3 — crash recovery on init -/

/-- C3: for any persisted file that parses to a document containing a
download in `downloading` (active) state, `init` yields that download in
`pending` state, leaves no download in `downloading` state, and the file
after `init` parses back to exactly the in-memory data (the reset is
persisted). -/
theorem init_resets_active (file : Json) (d : StorageData) (dl : Download)
    (hdec : decodeStorage file = some d) (hdl : dl ∈ d.downloads)
    (hst : dl.status = DlStatus.downloading) :
    ∃ r f, init file = some (r, f)
      ∧ { dl with status := DlStatus.pending } ∈ r.downloads
      ∧ (∀ dl' ∈ r.downloads, dl'.status ≠ DlStatus.downloading)
      ∧ decodeStorage f = some r := by
  have h0 : 0 < (d.downloads.filter (fun x =>
      x.status == DlStatus.downloading)).length := by
    have hmem : dl ∈ d.downloads.filter (fun x =>
        x.status == DlStatus.downloading) :=
      List.mem_filter.mpr ⟨hdl, by rw [hst]; rfl⟩
    exact List.length_pos.mpr (List.ne_nil_of_mem hmem)
  refine ⟨migrateVideos (resetDownloading d),
    (if d.videos.any (fun kv => kv.2.id == "")
      then save (migrateVideos (resetDownloading d))
      else save (resetDownloading d)), ?_, ?_, ?_, ?_⟩
  · rw [init_eq_of_decode file d hdec, if_pos h0]
  · have hmem : ({ dl with status := DlStatus.pending } : Download) ∈
        (resetDownloading d).downloads := by
      unfold resetDownloading
      dsimp only
      have hmapped := List.mem_map_of_mem
        (fun x => if x.status == DlStatus.downloading
          then { x with status := DlStatus.pending } else x) hdl
      simpa [hst] using hmapped
    exact hmem
  · intro dl' hdl'
    have hdl'' : dl' ∈ d.downloads.map
        (fun x => if x.status == DlStatus.downloading
          then { x with status := DlStatus.pending } else x) := hdl'
    obtain ⟨a, ha, hae⟩ := List.mem_map.mp hdl''
    by_cases hc : (a.status == DlStatus.downloading) = true
    · rw [if_pos hc] at hae
      rw [← hae]
      intro hcontra
      exact absurd hcontra (by simp)
    · rw [if_neg hc] at hae
      rw [← hae]
      intro hcontra
      exact hc (by rw [hcontra]; rfl)
  · by_cases hm : d.videos.any (fun kv => kv.2.id == "") = true
    · rw [if_pos hm]
      exact decodeStorage_encodeStorage _
    · rw [if_neg hm]
      have hnone : ∀ kv ∈ d.videos, ¬ (kv.2.id == "") = true := by
        intro kv hkv hempty
        exact hm (List.any_eq_true.mpr ⟨kv, hkv, hempty⟩)
      have hmig : migrateVideos (resetDownloading d) = resetDownloading d := by
        apply migrateVideos_eq_self
        intro kv hkv hempty
        exact absurd (by simp [hempty]) (hnone kv hkv)
      rw [hmig]
      exact decodeStorage_encodeStorage _

/-- The in-flight download of the C3 witness. -/
def c3Dl : Download :=
  { id := "dl_7", videoId := "v1", status := DlStatus.downloading,
    quality := "480p", filePath := none, retryCount := 0,
    errorMessage := none, startedAt := some "t1", completedAt := none }

/-- The stored video of the C3 witness. -/
def c3Video : Video :=
  { id := "v1", channelId := "ch_1", title := "a", url := "u1",
    thumbnail := "th1", duration := none, uploadDate := none,
    discoveredAt := "t0" }

/-- A persisted state holding one in-flight download. -/
def c3State : StorageData :=
  { channels := [], videos := [("v1", c3Video)], downloads := [c3Dl] }

/-- C3 witness: the hypotheses hold at a concrete persisted file with an
active task, and `init` resets it to `pending`. -/
theorem init_resets_active_witness :
    decodeStorage (encodeStorage c3State) = some c3State
    ∧ c3Dl ∈ c3State.downloads
    ∧ c3Dl.status = DlStatus.downloading
    ∧ (∃ r f, init (encodeStorage c3State) = some (r, f)
        ∧ { c3Dl with status := DlStatus.pending } ∈ r.downloads
        ∧ (∀ dl' ∈ r.downloads, dl'.status ≠ DlStatus.downloading)
        ∧ decodeStorage f = some r) :=
  ⟨decodeStorage_encodeStorage c3State, by decide, rfl,
   init_resets_active (encodeStorage c3State) c3State c3Dl
     (decodeStorage_encodeStorage c3State) (by decide) rfl⟩

/-! ## C5 — item discovery is idempotent -/

/-- `addVideo` never touches entries under a different key. -/
theorem addVideo_videos_filter_ne (s : StorageData) (chId : String)
    (vd : FetchedVideo) (now k : String) (h : vd.id ≠ k) :
    (addVideo s chId vd now).1.videos.filter (fun kv => kv.1 == k) =
      s.videos.filter (fun kv => kv.1 == k) := by
  rcases hfind : s.videos.find? (fun kv => kv.1 == vd.id) with _ | x
  · simp only [addVideo, hfind]
    rw [List.filter_append]
    have hne : (vd.id == k) = false := beq_eq_false_iff_ne.mpr h
    have h1 : ∀ v : Video,
        List.filter (fun kv => kv.1 == k) [(vd.id, v)] = [] := by
      intro v
      simp [List.filter, hne]
    rw [h1, List.append_nil]
  · simp only [addVideo, hfind]

/-- `addVideo` never touches the downloads. -/
theorem addVideo_downloads (s : StorageData) (chId : String)
    (vd : FetchedVideo) (now : String) :
    (addVideo s chId vd now).1.downloads = s.downloads := by
  rcases hfind : s.videos.find? (fun kv => kv.1 == vd.id) with _ | x <;>
    simp only [addVideo, hfind]

/-- `createDownload` never touches downloads of a different video. -/
theorem createDownload_downloads_filter_ne (s : StorageData)
    (vid q nid k : String) (h : vid ≠ k) :
    (createDownload s vid q nid).1.downloads.filter
      (fun dl => dl.videoId == k) =
      s.downloads.filter (fun dl => dl.videoId == k) := by
  rcases hfind : s.downloads.find? (fun dl => dl.videoId == vid &&
      (dl.status == DlStatus.pending ||
       dl.status == DlStatus.downloading)) with _ | x
  · simp only [createDownload, hfind]
    rw [List.filter_append]
    have hne : (vid == k) = false := beq_eq_false_iff_ne.mpr h
    have h1 : List.filter (fun dl => dl.videoId == k)
        [({ id := nid, videoId := vid, status := DlStatus.pending,
            quality := q, filePath := none, retryCount := 0,
            errorMessage := none, startedAt := none,
            completedAt := none } : Download)] = [] := by
      simp [List.filter, hne]
    rw [h1, List.append_nil]
  · simp only [createDownload, hfind]

/-- `createDownload` never touches the videos. -/
theorem createDownload_videos (s : StorageData) (vid q nid : String) :
    (createDownload s vid q nid).1.videos = s.videos := by
  rcases hfind : s.downloads.find? (fun dl => dl.videoId == vid &&
      (dl.status == DlStatus.pending ||
       dl.status == DlStatus.downloading)) with _ | x <;>
    simp only [createDownload, hfind]

/-- The discovery fold of `checkChannelStep` leaves the entries and
downloads of a video id that appears in none of the folded videos
untouched. -/
theorem foldl_discovery_filter_ne (ch : Channel) (q now : String)
    (dlIdOf : String → String) (k : String) :
    ∀ (l : List FetchedVideo) (st : StorageData), (∀ v ∈ l, v.id ≠ k) →
    ((l.foldl (fun st v =>
        (enqueue ((addVideo st ch.id v now).1) v.id q (dlIdOf v.id)).1)
        st).videos.filter (fun kv => kv.1 == k) =
      st.videos.filter (fun kv => kv.1 == k))
    ∧ ((l.foldl (fun st v =>
        (enqueue ((addVideo st ch.id v now).1) v.id q (dlIdOf v.id)).1)
        st).downloads.filter (fun dl => dl.videoId == k) =
      st.downloads.filter (fun dl => dl.videoId == k)) := by
  intro l
  induction l with
  | nil => exact fun st _ => ⟨rfl, rfl⟩
  | cons v rest ih =>
    intro st hl
    have hv : v.id ≠ k := hl v (by simp)
    rw [List.foldl_cons]
    obtain ⟨h1, h2⟩ := ih _ (fun w hw => hl w (by simp [hw]))
    refine ⟨?_, ?_⟩
    · rw [h1]
      show (createDownload ((addVideo st ch.id v now).1) v.id q
          (dlIdOf v.id)).1.videos.filter (fun kv => kv.1 == k) = _
      rw [createDownload_videos]
      exact addVideo_videos_filter_ne st ch.id v now k hv
    · rw [h2]
      show (createDownload ((addVideo st ch.id v now).1) v.id q
          (dlIdOf v.id)).1.downloads.filter (fun dl => dl.videoId == k) = _
      rw [createDownload_downloads_filter_ne _ _ _ _ _ hv, addVideo_downloads]

/-- C5: (i) `addVideo` with an already-known external id returns `false`
and changes nothing; (ii) a discovery pass of the scheduler over an
already-known id `k` neither adds a second entry under `k`, nor modifies
the stored entry, nor creates any download for `k`. -/
theorem discovery_idempotent (s : StorageData) (chId : String)
    (vd : FetchedVideo) (now : String) (ch : Channel)
    (videos : List FetchedVideo) (quality nowCheck : String)
    (dlIdOf : String → String) (k : String) :
    (videoExists s vd.id = true → addVideo s chId vd now = (s, false))
    ∧ (videoExists s k = true →
        ((checkChannelStep s ch videos quality nowCheck dlIdOf).videos.filter
            (fun kv => kv.1 == k) =
          s.videos.filter (fun kv => kv.1 == k))
        ∧ ((checkChannelStep s ch videos quality nowCheck dlIdOf).downloads.filter
            (fun dl => dl.videoId == k) =
          s.downloads.filter (fun dl => dl.videoId == k))) := by
  constructor
  · intro hex
    obtain ⟨x, hx⟩ := Option.isSome_iff_exists.mp hex
    simp [addVideo, hx]
  · intro hk
    have hnew : ∀ v ∈ videos.filter (fun v => !(videoExists s v.id)),
        v.id ≠ k := by
      intro v hv hvk
      obtain ⟨_, hpred⟩ := List.mem_filter.mp hv
      rw [hvk] at hpred
      simp [hk] at hpred
    exact foldl_discovery_filter_ne ch quality nowCheck dlIdOf k _ s hnew

/-- The stored video of the C5 witness. -/
def c5Video : Video :=
  { id := "v1", channelId := "ch_1", title := "a", url := "u1",
    thumbnail := "th1", duration := none, uploadDate := none,
    discoveredAt := "t0" }

/-- The enabled channel of the C5 witness. -/
def c5Ch : Channel :=
  { id := "ch_1", url := "https://youtube.com/@x", name := none,
    enabled := true, lastCheckAt := none, createdAt := "t-1" }

/-- A store that already knows video `"v1"`. -/
def c5State : StorageData :=
  { channels := [c5Ch], videos := [("v1", c5Video)], downloads := [] }

/-- A freshly fetched listing entry for the already-known id `"v1"`. -/
def c5Fetched : FetchedVideo :=
  { id := "v1", title := "a", url := "u1", thumbnail := "th1",
    duration := none, uploadDate := none }

/-- A freshly fetched listing entry for a new id `"v2"`. -/
def c5Fetched2 : FetchedVideo :=
  { id := "v2", title := "b", url := "u2", thumbnail := "th2",
    duration := none, uploadDate := none }

/-- C5 witness: re-discovering `"v1"` is a no-op for `addVideo`, and a
scan pass over a listing containing the known `"v1"` and the new `"v2"`
leaves `"v1"`'s entry and downloads untouched. -/
theorem discovery_idempotent_witness :
    videoExists c5State "v1" = true
    ∧ addVideo c5State "ch_1" c5Fetched "t9" = (c5State, false)
    ∧ (((checkChannelStep c5State c5Ch [c5Fetched, c5Fetched2] "720p" "t9"
          (fun v => v)).videos.filter (fun kv => kv.1 == "v1") =
        c5State.videos.filter (fun kv => kv.1 == "v1"))
      ∧ ((checkChannelStep c5State c5Ch [c5Fetched, c5Fetched2] "720p" "t9"
          (fun v => v)).downloads.filter (fun dl => dl.videoId == "v1") =
        c5State.downloads.filter (fun dl => dl.videoId == "v1"))) :=
  ⟨by decide,
   (discovery_idempotent c5State "ch_1" c5Fetched "t9" c5Ch
     [c5Fetched, c5Fetched2] "720p" "t9" (fun v => v) "v1").1 (by decide),
   (discovery_idempotent c5State "ch_1" c5Fetched "t9" c5Ch
     [c5Fetched, c5Fetched2] "720p" "t9" (fun v => v) "v1").2 (by decide)⟩

/-! ## C7 — scans never overlap

`checkAllChannelsNow` (src/src/scheduler.js lines 59-115) guards itself
with `this._isChecking`: the test (line 60) and the set (line 65) are
synchronous JS statements with no `await` between them, so no other call
can interleave there; the `finally` clause (line 113) releases the flag
when the pass that entered finishes. The model keeps the flag plus a
ghost count of passes that are inside the `try` block; a pass scans
sources only after entering. -/

/-- The scheduler's guard state: `_isChecking` plus the ghost number of
scan passes currently inside the `try` block. -/
structure SchedulerState where
  isChecking : Bool
  activePasses : Nat
deriving DecidableEq

/-- The synchronous entry of `checkAllChannelsNow`: a call made while a
check is running returns immediately (result `false`: no pass started,
nothing scanned); otherwise it takes the flag and enters a scan pass. -/
def checkAllNowEntry (st : SchedulerState) : SchedulerState × Bool :=
  if st.isChecking then (st, false)
  else ({ isChecking := true, activePasses := st.activePasses + 1 }, true)

/-- The `finally` clause: the pass that entered releases the flag. -/
def checkAllNowFinally (st : SchedulerState) : SchedulerState :=
  { isChecking := false, activePasses := st.activePasses - 1 }

/-- Scheduler states reachable from startup under any interleaving of
calls to `checkAllChannelsNow`: a call either bounces off the guard
(state unchanged) or enters; only a pass that entered runs the
`finally`. -/
inductive SchedReachable : SchedulerState → Prop
  | start : SchedReachable { isChecking := false, activePasses := 0 }
  | enter {st : SchedulerState} : SchedReachable st →
      (checkAllNowEntry st).2 = true →
      SchedReachable (checkAllNowEntry st).1
  | leave {st : SchedulerState} : SchedReachable st →
      st.isChecking = true → SchedReachable (checkAllNowFinally st)

/-- In every reachable scheduler state the number of passes inside the
`try` block is exactly the flag. -/
theorem schedReachable_passes_eq (st : SchedulerState)
    (h : SchedReachable st) :
    st.activePasses = if st.isChecking then 1 else 0 := by
  induction h with
  | start => rfl
  | enter hr hb ih =>
    rename_i st'
    unfold checkAllNowEntry at hb ⊢
    by_cases hc : st'.isChecking
    · rw [if_pos hc] at hb
      exact absurd hb (by simp)
    · rw [if_neg hc] at ih ⊢
      simp [ih]
  | leave hr hc ih =>
    rename_i st'
    rw [if_pos hc] at ih
    unfold checkAllNowFinally
    simp [ih]

/-- C7: (i) at most one scan pass is ever in progress, in every state
reachable under any interleaving of `checkAllChannelsNow` calls; (ii) a
call made while a check is already running returns immediately with the
state unchanged and starts no pass (scans nothing). -/
theorem checkAllNow_never_overlaps :
    (∀ st : SchedulerState, SchedReachable st → st.activePasses ≤ 1)
    ∧ (∀ st : SchedulerState, st.isChecking = true →
        checkAllNowEntry st = (st, false)) := by
  constructor
  · intro st h
    rw [schedReachable_passes_eq st h]
    by_cases hc : st.isChecking <;> simp [hc]
  · intro st hc
    unfold checkAllNowEntry
    rw [if_pos hc]

/-- C7 witness: the state with one running pass is reachable, satisfies
the bound, and bounces a second concurrent call. -/
theorem checkAllNow_never_overlaps_witness :
    SchedReachable { isChecking := true, activePasses := 1 }
    ∧ ({ isChecking := true, activePasses := 1 } : SchedulerState).activePasses ≤ 1
    ∧ checkAllNowEntry { isChecking := true, activePasses := 1 } =
        ({ isChecking := true, activePasses := 1 }, false) :=
  ⟨SchedReachable.enter SchedReachable.start rfl,
   checkAllNow_never_overlaps.1 { isChecking := true, activePasses := 1 }
     (SchedReachable.enter SchedReachable.start rfl),
   checkAllNow_never_overlaps.2 { isChecking := true, activePasses := 1 } rfl⟩

/-! ## C9 — bounded concurrency

`_processQueue` (src/server.js lines 827-861) checks
`activeDownloads.size >= maxConcurrentDownloads` before popping one
pending download and starting `_downloadNext` on it. The model steps at
the granularity of the Node.js event loop: each constructor is one
macrotask together with the microtask chain it triggers, which runs to
its next real suspension point before any other macrotask. In
particular `dispatch` covers the capacity check (line 834), the pop of
the first pending download (line 841) and `_downloadNext` up to
`activeDownloads.set` inside `_executeDownload` (line 968): the awaits
in between (`getVideo`, `updateDownloadStatus` whose `save` uses
synchronous file IO) resolve as microtasks, so no other `_processQueue`
macrotask can interleave between the check and the set. A burst of
enqueues is any number of `enqueueTask` steps. -/

/-- `Storage.getVideo(videoId)` (src/src/utils.js lines 467-469). -/
def getVideo (s : StorageData) (videoId : String) : Option Video :=
  (s.videos.find? (fun kv => kv.1 == videoId)).map (fun kv => kv.2)

/-- The queue's in-memory pool: the store plus the keys of
`activeDownloads` (src/server.js line 758). -/
structure QueueState where
  store : StorageData
  active : List String
deriving DecidableEq

/-- One event-loop step of the running system around the download queue.
`maxC` is `config.maxConcurrentDownloads`. -/
inductive QueueStep (maxC : Nat) : QueueState → QueueState → Prop
  | enqueueTask (q : QueueState) (videoId quality newId : String) :
      QueueStep maxC q
        (QueueState.mk (createDownload q.store videoId quality newId).1
          q.active)
  | dispatch (q : QueueState) (d : Download) (v : Video) (now : String) :
      q.active.length < maxC →
      getPendingDownloads q.store 1 = [d] →
      getVideo q.store d.videoId = some v →
      QueueStep maxC q
        (QueueState.mk
          (updateDownloadStatus q.store d.id DlStatus.downloading {} now)
          (d.id :: q.active))
  | dispatchNoVideo (q : QueueState) (d : Download) (now : String) :
      q.active.length < maxC →
      getPendingDownloads q.store 1 = [d] →
      getVideo q.store d.videoId = none →
      QueueStep maxC q
        (QueueState.mk
          (updateDownloadStatus q.store d.id DlStatus.failed
            { errorMessage := some "视频信息不存在" } now)
          q.active)
  | finishSuccess (q : QueueState) (id fp now : String) :
      id ∈ q.active →
      QueueStep maxC q
        (QueueState.mk
          (updateDownloadStatus q.store id DlStatus.completed
            { filePath := some fp, completedAt := some now } now)
          (q.active.erase id))
  | finishFailure (q : QueueState) (id msg now : String) :
      id ∈ q.active →
      QueueStep maxC q
        (QueueState.mk (handleFailure q.store id msg now)
          (q.active.erase id))
  | retryEndpoint (q : QueueState) (id : String) :
      QueueStep maxC q
        (QueueState.mk (retryFailedDownload q.store id).1 q.active)

/-- Queue states reachable from a freshly started queue over store
`s0`. -/
inductive QueueReachable (maxC : Nat) (s0 : StorageData) : QueueState → Prop
  | start : QueueReachable maxC s0 (QueueState.mk s0 [])
  | step {q q' : QueueState} : QueueReachable maxC s0 q →
      QueueStep maxC q q' → QueueReachable maxC s0 q'

/-- The number of downloads recorded in `downloading` (the spec's
`active`) state. -/
def countActiveStatus (s : StorageData) : Nat :=
  (s.downloads.filter (fun dl => dl.status == DlStatus.downloading)).length

/-- C9 (amended): in every reachable state, under any interleaving of
enqueues, dispatch-loop iterations and completions, the number of
downloads concurrently under execution (the `activeDownloads` pool)
never exceeds `maxConcurrent` — not even transiently, since admission
happens atomically with respect to other dispatcher runs. -/
theorem active_executions_bounded (maxC : Nat) (s0 : StorageData)
    (q : QueueState) (h : QueueReachable maxC s0 q) :
    q.active.length ≤ maxC := by
  induction h with
  | start => simp
  | step hr hs ih =>
    rename_i qSrc qTgt
    cases hs with
    | enqueueTask videoId quality newId => exact ih
    | dispatch d v now hlen hpend hvid => exact hlen
    | dispatchNoVideo d now hlen hpend hvid => exact ih
    | finishSuccess id fp now hmem =>
      calc (qSrc.active.erase id).length ≤ qSrc.active.length :=
            List.Sublist.length_le (List.erase_sublist _ _)
        _ ≤ maxC := ih
    | finishFailure id msg now hmem =>
      calc (qSrc.active.erase id).length ≤ qSrc.active.length :=
            List.Sublist.length_le (List.erase_sublist _ _)
        _ ≤ maxC := ih
    | retryEndpoint id => exact ih

/-- First monitored video of the C9 trace. -/
def c9V1 : Video :=
  { id := "v1", channelId := "ch_1", title := "a", url := "u1",
    thumbnail := "th1", duration := none, uploadDate := none,
    discoveredAt := "t0" }

/-- Second monitored video of the C9 trace. -/
def c9V2 : Video :=
  { id := "v2", channelId := "ch_1", title := "b", url := "u2",
    thumbnail := "th2", duration := none, uploadDate := none,
    discoveredAt := "t0" }

/-- Initial store of the C9 trace: two known videos, no downloads. -/
def c9S0 : StorageData :=
  { channels := [], videos := [("v1", c9V1), ("v2", c9V2)],
    downloads := [] }

/-- The C9 trace, `maxConcurrent = 1`: enqueue both videos, dispatch the
first, fail it (the C1 lookup bug leaves it stuck in `downloading`),
then dispatch the second. -/
def c9Q0 : QueueState := QueueState.mk c9S0 []

/-- After enqueueing video 1. -/
def c9Q1 : QueueState :=
  QueueState.mk (createDownload c9Q0.store "v1" "720p" "dl_1").1 c9Q0.active

/-- After enqueueing video 2. -/
def c9Q2 : QueueState :=
  QueueState.mk (createDownload c9Q1.store "v2" "720p" "dl_2").1 c9Q1.active

/-- The first pending download popped by the dispatcher. -/
def c9D1 : Download :=
  { id := "dl_1", videoId := "v1", status := DlStatus.pending,
    quality := "720p", filePath := none, retryCount := 0,
    errorMessage := none, startedAt := none, completedAt := none }

/-- After dispatching download 1. -/
def c9Q3 : QueueState :=
  QueueState.mk
    (updateDownloadStatus c9Q2.store c9D1.id DlStatus.downloading {} "t1")
    (c9D1.id :: c9Q2.active)

/-- After download 1 fails: `handleFailure` cannot find it among the
pending records, so its status stays `downloading` while it leaves the
execution pool. -/
def c9Q4 : QueueState :=
  QueueState.mk (handleFailure c9Q3.store "dl_1" "boom" "t2")
    (c9Q3.active.erase "dl_1")

/-- The second pending download popped by the dispatcher. -/
def c9D2 : Download :=
  { id := "dl_2", videoId := "v2", status := DlStatus.pending,
    quality := "720p", filePath := none, retryCount := 0,
    errorMessage := none, startedAt := none, completedAt := none }

/-- After dispatching download 2. -/
def c9Q5 : QueueState :=
  QueueState.mk
    (updateDownloadStatus c9Q4.store c9D2.id DlStatus.downloading {} "t3")
    (c9D2.id :: c9Q4.active)

/-- The C9 trace is reachable with `maxConcurrent = 1`. -/
theorem c9_trace : QueueReachable 1 c9S0 c9Q5 :=
  QueueReachable.step (QueueReachable.step (QueueReachable.step
    (QueueReachable.step (QueueReachable.step QueueReachable.start
      (QueueStep.enqueueTask c9Q0 "v1" "720p" "dl_1"))
      (QueueStep.enqueueTask c9Q1 "v2" "720p" "dl_2"))
      (QueueStep.dispatch c9Q2 c9D1 c9V1 "t1" (by decide) (by decide)
        (by decide)))
      (QueueStep.finishFailure c9Q3 "dl_1" "boom" "t2" (by decide)))
      (QueueStep.dispatch c9Q4 c9D2 c9V2 "t3" (by decide) (by decide)
        (by decide))

/-- C9 counterexample: with `maxConcurrent = 1`, the system reaches a
state in which two tasks are recorded in `downloading` (the spec's
`active`) state — the count of tasks in `active` state is not bounded by
`maxConcurrent`, because a failed execution leaves its task stuck in
`downloading` while its slot is freed. -/
theorem active_status_not_bounded :
    QueueReachable 1 c9S0 c9Q5
    ∧ countActiveStatus c9Q5.store = 2
    ∧ ¬ countActiveStatus c9Q5.store ≤ 1 :=
  ⟨c9_trace, by decide, by decide⟩

/-- C9 witness: the bound on concurrently executing downloads holds at
the endpoint of the concrete trace. -/
theorem active_executions_bounded_witness :
    QueueReachable 1 c9S0 c9Q5 ∧ c9Q5.active.length ≤ 1 :=
  ⟨c9_trace, active_executions_bounded 1 c9S0 c9Q5 c9_trace⟩

/-! ## C8 — per-source failure isolation -/

/-- Whether the store holds a `pending` or `downloading` download for
the video — "a task is enqueued" for it. -/
def hasPendingOrActive (s : StorageData) (videoId : String) : Bool :=
  s.downloads.any (fun dl => dl.videoId == videoId &&
    (dl.status == DlStatus.pending || dl.status == DlStatus.downloading))

/-- Whether the external listing for the channel throws. -/
def checkFails (outcome : Channel → Except Unit (List FetchedVideo))
    (ch : Channel) : Bool :=
  match outcome ch with
  | Except.error _ => true
  | Except.ok _ => false


/-- `find?` succeeds on an append iff it succeeds on either part. -/
theorem find?_isSome_append (p : α → Bool) (l m : List α) :
    ((l ++ m).find? p).isSome = ((l.find? p).isSome || (m.find? p).isSome) := by
  induction l with
  | nil => rfl
  | cons a as ih =>
    by_cases hp : p a = true
    · simp [List.find?_cons_of_pos _ hp]
    · have hp' : p a = false := by simpa using hp
      simp [List.cons_append, List.find?_cons, hp', ih]

/-- `addVideo` makes its own video id exist. -/
theorem addVideo_exists_self (s : StorageData) (c : String)
    (vd : FetchedVideo) (now : String) :
    videoExists (addVideo s c vd now).1 vd.id = true := by
  rcases hfind : s.videos.find? (fun kv => kv.1 == vd.id) with _ | x
  · simp only [addVideo, hfind]
    unfold videoExists
    dsimp only
    rw [find?_isSome_append]
    simp
  · simp only [addVideo, hfind]
    simp [videoExists, hfind]

/-- `addVideo` keeps every existing video id in existence. -/
theorem addVideo_exists_mono (s : StorageData) (c : String)
    (vd : FetchedVideo) (now k : String) (h : videoExists s k = true) :
    videoExists (addVideo s c vd now).1 k = true := by
  rcases hfind : s.videos.find? (fun kv => kv.1 == vd.id) with _ | x
  · simp only [addVideo, hfind]
    unfold videoExists at h ⊢
    dsimp only
    rw [find?_isSome_append, h, Bool.true_or]
  · simp only [addVideo, hfind]
    exact h

/-- A video id that exists after `addVideo` of a different id already
existed before. -/
theorem addVideo_exists_rev (s : StorageData) (c : String)
    (vd : FetchedVideo) (now k : String) (hne : vd.id ≠ k)
    (h : videoExists (addVideo s c vd now).1 k = true) :
    videoExists s k = true := by
  rcases hfind : s.videos.find? (fun kv => kv.1 == vd.id) with _ | x
  · rw [addVideo] at h
    rw [hfind] at h
    unfold videoExists at h ⊢
    dsimp only at h
    rw [find?_isSome_append] at h
    rcases Bool.or_eq_true_iff.mp h with h1 | h2
    · exact h1
    · exfalso
      have hne' : (vd.id == k) = false := beq_eq_false_iff_ne.mpr hne
      simp [List.find?, hne'] at h2
  · rw [addVideo] at h
    rw [hfind] at h
    exact h

/-- `addVideo` never changes which videos have an enqueued task. -/
theorem addVideo_poa_eq (s : StorageData) (c : String) (vd : FetchedVideo)
    (now k : String) :
    hasPendingOrActive (addVideo s c vd now).1 k = hasPendingOrActive s k := by
  unfold hasPendingOrActive
  rw [addVideo_downloads]

/-- `createDownload` never changes which video ids exist. -/
theorem createDownload_exists_eq (s : StorageData) (vid q nid k : String) :
    videoExists (createDownload s vid q nid).1 k = videoExists s k := by
  unfold videoExists
  rw [createDownload_videos]

/-- After `createDownload` its video always has an enqueued task. -/
theorem createDownload_poa_self (s : StorageData) (vid q nid : String) :
    hasPendingOrActive (createDownload s vid q nid).1 vid = true := by
  rcases hfind : s.downloads.find? (fun dl => dl.videoId == vid &&
      (dl.status == DlStatus.pending ||
       dl.status == DlStatus.downloading)) with _ | x
  · simp only [createDownload, hfind]
    unfold hasPendingOrActive
    dsimp only
    rw [List.any_append]
    simp
  · simp only [createDownload, hfind]
    unfold hasPendingOrActive
    have hpx := List.find?_some hfind
    have hmx := List.mem_of_find?_eq_some hfind
    exact List.any_eq_true.mpr ⟨x, hmx, hpx⟩

/-- `createDownload` keeps every enqueued task enqueued. -/
theorem createDownload_poa_mono (s : StorageData) (vid q nid k : String)
    (h : hasPendingOrActive s k = true) :
    hasPendingOrActive (createDownload s vid q nid).1 k = true := by
  rcases hfind : s.downloads.find? (fun dl => dl.videoId == vid &&
      (dl.status == DlStatus.pending ||
       dl.status == DlStatus.downloading)) with _ | x
  · simp only [createDownload, hfind]
    unfold hasPendingOrActive at h ⊢
    dsimp only
    rw [List.any_append, h, Bool.true_or]
  · simp only [createDownload, hfind]
    exact h

/-- `DownloadQueue.enqueue`'s store effect is `Storage.createDownload`. -/
theorem enqueue_def (s : StorageData) (vid q nid : String) :
    enqueue s vid q nid = createDownload s vid q nid := rfl

/-- After the per-video discovery step (`addVideo` + `enqueue`), the
video exists and has an enqueued task. -/
theorem step_establishes (st : StorageData) (ch : Channel)
    (v : FetchedVideo) (q now : String) (dlIdOf : String → String) :
    videoExists ((enqueue ((addVideo st ch.id v now).1) v.id q
        (dlIdOf v.id)).1) v.id = true
    ∧ hasPendingOrActive ((enqueue ((addVideo st ch.id v now).1) v.id q
        (dlIdOf v.id)).1) v.id = true := by
  rw [enqueue_def]
  constructor
  · rw [createDownload_exists_eq]
    exact addVideo_exists_self st ch.id v now
  · exact createDownload_poa_self _ _ _ _

/-- The per-video discovery step keeps existing video ids. -/
theorem step_exists_mono (st : StorageData) (ch : Channel)
    (v : FetchedVideo) (q now : String) (dlIdOf : String → String)
    (k : String) (h : videoExists st k = true) :
    videoExists ((enqueue ((addVideo st ch.id v now).1) v.id q
        (dlIdOf v.id)).1) k = true := by
  rw [enqueue_def, createDownload_exists_eq]
  exact addVideo_exists_mono st ch.id v now k h

/-- The per-video discovery step keeps enqueued tasks. -/
theorem step_poa_mono (st : StorageData) (ch : Channel)
    (v : FetchedVideo) (q now : String) (dlIdOf : String → String)
    (k : String) (h : hasPendingOrActive st k = true) :
    hasPendingOrActive ((enqueue ((addVideo st ch.id v now).1) v.id q
        (dlIdOf v.id)).1) k = true := by
  rw [enqueue_def]
  apply createDownload_poa_mono
  rw [addVideo_poa_eq]
  exact h

/-- The per-video discovery step preserves "exists implies enqueued". -/
theorem step_inv (st : StorageData) (ch : Channel) (v : FetchedVideo)
    (q now : String) (dlIdOf : String → String) (k : String)
    (hinv : videoExists st k = true → hasPendingOrActive st k = true) :
    videoExists ((enqueue ((addVideo st ch.id v now).1) v.id q
        (dlIdOf v.id)).1) k = true →
    hasPendingOrActive ((enqueue ((addVideo st ch.id v now).1) v.id q
        (dlIdOf v.id)).1) k = true := by
  intro hex
  by_cases hk : v.id = k
  · subst hk
    exact (step_establishes st ch v q now dlIdOf).2
  · rw [enqueue_def, createDownload_exists_eq] at hex
    have h0 : videoExists st k = true :=
      addVideo_exists_rev st ch.id v now k hk hex
    exact step_poa_mono st ch v q now dlIdOf k (hinv h0)

/-- The discovery fold keeps existing video ids. -/
theorem fold_exists_mono (ch : Channel) (q now : String)
    (dlIdOf : String → String) (k : String) :
    ∀ (l : List FetchedVideo) (st : StorageData), videoExists st k = true →
    videoExists (l.foldl (fun st v =>
      (enqueue ((addVideo st ch.id v now).1) v.id q (dlIdOf v.id)).1) st)
      k = true := by
  intro l
  induction l with
  | nil => exact fun st h => h
  | cons v rest ih =>
    intro st h
    rw [List.foldl_cons]
    exact ih _ (step_exists_mono st ch v q now dlIdOf k h)

/-- The discovery fold keeps enqueued tasks. -/
theorem fold_poa_mono (ch : Channel) (q now : String)
    (dlIdOf : String → String) (k : String) :
    ∀ (l : List FetchedVideo) (st : StorageData),
    hasPendingOrActive st k = true →
    hasPendingOrActive (l.foldl (fun st v =>
      (enqueue ((addVideo st ch.id v now).1) v.id q (dlIdOf v.id)).1) st)
      k = true := by
  intro l
  induction l with
  | nil => exact fun st h => h
  | cons v rest ih =>
    intro st h
    rw [List.foldl_cons]
    exact ih _ (step_poa_mono st ch v q now dlIdOf k h)

/-- The discovery fold preserves "exists implies enqueued". -/
theorem fold_inv (ch : Channel) (q now : String)
    (dlIdOf : String → String) (k : String) :
    ∀ (l : List FetchedVideo) (st : StorageData),
    (videoExists st k = true → hasPendingOrActive st k = true) →
    videoExists (l.foldl (fun st v =>
      (enqueue ((addVideo st ch.id v now).1) v.id q (dlIdOf v.id)).1) st)
      k = true →
    hasPendingOrActive (l.foldl (fun st v =>
      (enqueue ((addVideo st ch.id v now).1) v.id q (dlIdOf v.id)).1) st)
      k = true := by
  intro l
  induction l with
  | nil => exact fun st h => h
  | cons v rest ih =>
    intro st h
    rw [List.foldl_cons]
    exact ih _ (step_inv st ch v q now dlIdOf k h)

/-- The discovery fold over a list containing id `k` establishes both
existence and an enqueued task for `k`. -/
theorem fold_establishes (ch : Channel) (q now : String)
    (dlIdOf : String → String) (k : String) :
    ∀ (l : List FetchedVideo) (st : StorageData), (∃ w ∈ l, w.id = k) →
    videoExists (l.foldl (fun st v =>
      (enqueue ((addVideo st ch.id v now).1) v.id q (dlIdOf v.id)).1) st)
      k = true
    ∧ hasPendingOrActive (l.foldl (fun st v =>
      (enqueue ((addVideo st ch.id v now).1) v.id q (dlIdOf v.id)).1) st)
      k = true := by
  intro l
  induction l with
  | nil =>
    rintro st ⟨w, hw, _⟩
    exact absurd hw (List.not_mem_nil w)
  | cons v rest ih =>
    rintro st ⟨w, hw, hwk⟩
    rw [List.foldl_cons]
    by_cases hv : v.id = k
    · subst hv
      have he := step_establishes st ch v q now dlIdOf
      exact ⟨fold_exists_mono ch q now dlIdOf v.id rest _ he.1,
        fold_poa_mono ch q now dlIdOf v.id rest _ he.2⟩
    · rcases List.mem_cons.mp hw with he | hw'
      · rw [he] at hwk
        exact absurd hwk hv
      · exact ih _ ⟨w, hw', hwk⟩

/-- `updateChannelLastCheck` does not change which video ids exist. -/
theorem updateChannelLastCheck_exists (t : StorageData) (id n k : String) :
    videoExists (updateChannelLastCheck t id n) k = videoExists t k := rfl

/-- `updateChannelLastCheck` does not change enqueued tasks. -/
theorem updateChannelLastCheck_poa (t : StorageData) (id n k : String) :
    hasPendingOrActive (updateChannelLastCheck t id n) k =
      hasPendingOrActive t k := rfl

/-- A channel check keeps existing video ids. -/
theorem ccs_exists_mono (s : StorageData) (ch : Channel)
    (vids : List FetchedVideo) (q now : String) (dlIdOf : String → String)
    (k : String) (h : videoExists s k = true) :
    videoExists (checkChannelStep s ch vids q now dlIdOf) k = true := by
  simp only [checkChannelStep]
  rw [updateChannelLastCheck_exists]
  exact fold_exists_mono ch q now dlIdOf k _ s h

/-- A channel check keeps enqueued tasks. -/
theorem ccs_poa_mono (s : StorageData) (ch : Channel)
    (vids : List FetchedVideo) (q now : String) (dlIdOf : String → String)
    (k : String) (h : hasPendingOrActive s k = true) :
    hasPendingOrActive (checkChannelStep s ch vids q now dlIdOf) k = true := by
  simp only [checkChannelStep]
  rw [updateChannelLastCheck_poa]
  exact fold_poa_mono ch q now dlIdOf k _ s h

/-- A channel check preserves "exists implies enqueued". -/
theorem ccs_inv (s : StorageData) (ch : Channel)
    (vids : List FetchedVideo) (q now : String) (dlIdOf : String → String)
    (k : String)
    (hinv : videoExists s k = true → hasPendingOrActive s k = true) :
    videoExists (checkChannelStep s ch vids q now dlIdOf) k = true →
    hasPendingOrActive (checkChannelStep s ch vids q now dlIdOf) k = true := by
  simp only [checkChannelStep]
  rw [updateChannelLastCheck_exists, updateChannelLastCheck_poa]
  exact fold_inv ch q now dlIdOf k _ s hinv

/-- Checking a channel whose listing contains id `k` leaves `k` existing
with an enqueued task. -/
theorem ccs_establishes (s : StorageData) (ch : Channel)
    (vids : List FetchedVideo) (q now : String) (dlIdOf : String → String)
    (k : String)
    (hinv : videoExists s k = true → hasPendingOrActive s k = true)
    (hv : ∃ w ∈ vids, w.id = k) :
    videoExists (checkChannelStep s ch vids q now dlIdOf) k = true
    ∧ hasPendingOrActive (checkChannelStep s ch vids q now dlIdOf) k = true := by
  simp only [checkChannelStep]
  rw [updateChannelLastCheck_exists, updateChannelLastCheck_poa]
  by_cases hex : videoExists s k = true
  · exact ⟨fold_exists_mono ch q now dlIdOf k _ s hex,
      fold_poa_mono ch q now dlIdOf k _ s (hinv hex)⟩
  · obtain ⟨w, hw, hwk⟩ := hv
    apply fold_establishes ch q now dlIdOf k _ s
    refine ⟨w, List.mem_filter.mpr ⟨hw, ?_⟩, hwk⟩
    rw [hwk]
    have hfalse : videoExists s k = false := by
      cases hkk : videoExists s k
      · rfl
      · exact absurd hkk hex
    simp [hfalse]

/-- The channel loop keeps an existing video id and its enqueued task,
whatever mix of failures and successes follows. -/
theorem loop_mono (outcome : Channel → Except Unit (List FetchedVideo))
    (q now : String) (dlIdOf : Channel → String → String) (k : String) :
    ∀ (chans : List Channel) (s : StorageData) (nv er : Nat),
    videoExists s k = true → hasPendingOrActive s k = true →
    videoExists (runChannelLoop outcome q now dlIdOf (s, nv, er) chans).1
      k = true
    ∧ hasPendingOrActive
        (runChannelLoop outcome q now dlIdOf (s, nv, er) chans).1 k = true := by
  intro chans
  induction chans with
  | nil => exact fun s nv er h1 h2 => ⟨h1, h2⟩
  | cons c rest ih =>
    intro s nv er h1 h2
    rcases ho : outcome c with e | vids
    · simp only [runChannelLoop, ho]
      exact ih s nv (er + 1) h1 h2
    · simp only [runChannelLoop, ho]
      exact ih _ _ _ (ccs_exists_mono s c vids q now (dlIdOf c) k h1)
        (ccs_poa_mono s c vids q now (dlIdOf c) k h2)

/-- If some channel of the loop succeeds and its listing contains id
`k`, then after the loop `k` exists and has an enqueued task — however
many other channels fail. -/
theorem loop_establishes (outcome : Channel → Except Unit (List FetchedVideo))
    (q now : String) (dlIdOf : Channel → String → String) (k : String) :
    ∀ (chans : List Channel) (s : StorageData) (nv er : Nat),
    (videoExists s k = true → hasPendingOrActive s k = true) →
    (∃ ch ∈ chans, ∃ vids, outcome ch = Except.ok vids ∧ ∃ w ∈ vids, w.id = k) →
    videoExists (runChannelLoop outcome q now dlIdOf (s, nv, er) chans).1
      k = true
    ∧ hasPendingOrActive
        (runChannelLoop outcome q now dlIdOf (s, nv, er) chans).1 k = true := by
  intro chans
  induction chans with
  | nil =>
    rintro s nv er _ ⟨ch, hch, _⟩
    exact absurd hch (List.not_mem_nil ch)
  | cons c rest ih =>
    rintro s nv er hinv ⟨ch, hch, vids, hok, hw⟩
    rcases ho : outcome c with e | cvids
    · simp only [runChannelLoop, ho]
      have hcne : ch ≠ c := by
        intro he
        rw [he, ho] at hok
        exact Except.noConfusion hok
      rcases List.mem_cons.mp hch with he | hin
      · exact absurd he hcne
      · exact ih s nv (er + 1) hinv ⟨ch, hin, vids, hok, hw⟩
    · simp only [runChannelLoop, ho]
      by_cases hc : ch = c
      · have hveq : cvids = vids := by
          rw [hc] at hok
          rw [hok] at ho
          exact (Except.ok.inj ho).symm
        have hw' : ∃ w ∈ cvids, w.id = k := by rw [hveq]; exact hw
        have hstep := ccs_establishes s c cvids q now (dlIdOf c) k hinv hw'
        exact loop_mono outcome q now dlIdOf k rest _ _ _ hstep.1 hstep.2
      · rcases List.mem_cons.mp hch with he | hin
        · exact absurd he hc
        · exact ih _ _ _ (ccs_inv s c cvids q now (dlIdOf c) k hinv)
            ⟨ch, hin, vids, hok, hw⟩

/-- The channel loop counts exactly the failing channels. -/
theorem loop_errors (outcome : Channel → Except Unit (List FetchedVideo))
    (q now : String) (dlIdOf : Channel → String → String) :
    ∀ (chans : List Channel) (s : StorageData) (nv er : Nat),
    (runChannelLoop outcome q now dlIdOf (s, nv, er) chans).2.2 =
      er + chans.countP (checkFails outcome) := by
  intro chans
  induction chans with
  | nil =>
    intro s nv er
    simp [runChannelLoop]
  | cons c rest ih =>
    intro s nv er
    rcases ho : outcome c with e | vids
    · simp only [runChannelLoop, ho]
      rw [ih]
      have hf : checkFails outcome c = true := by simp [checkFails, ho]
      rw [List.countP_cons]
      simp [hf]
      omega
    · simp only [runChannelLoop, ho]
      rw [ih]
      have hf : checkFails outcome c = false := by simp [checkFails, ho]
      rw [List.countP_cons]
      simp [hf]

/-- C8: over a full scan pass, (i) the pass's error total counts exactly
the sources whose check threw, and the pass continues past them; (ii)
every healthy source's new items are still discovered (the item exists
afterwards) and enqueued (a pending/active task for it exists
afterwards), regardless of which other sources failed. -/
theorem scan_isolates_failures (s : StorageData)
    (outcome : Channel → Except Unit (List FetchedVideo))
    (quality now : String) (dlIdOf : Channel → String → String) :
    ((checkAllChannelsNowPass s outcome quality now dlIdOf).2.2 =
      (getChannels s true).countP (checkFails outcome))
    ∧ (∀ (ch : Channel) (vids : List FetchedVideo) (v : FetchedVideo),
        ch ∈ getChannels s true → outcome ch = Except.ok vids →
        v ∈ vids → videoExists s v.id = false →
        videoExists (checkAllChannelsNowPass s outcome quality now dlIdOf).1
          v.id = true
        ∧ hasPendingOrActive
            (checkAllChannelsNowPass s outcome quality now dlIdOf).1
            v.id = true) := by
  constructor
  · show (runChannelLoop outcome quality now dlIdOf (s, 0, 0)
      (getChannels s true)).2.2 = _
    rw [loop_errors outcome quality now dlIdOf (getChannels s true) s 0 0,
      Nat.zero_add]
  · intro ch vids v hch hok hv hfresh
    have hinv : videoExists s v.id = true →
        hasPendingOrActive s v.id = true := by
      intro hex
      rw [hfresh] at hex
      exact absurd hex (by simp)
    exact loop_establishes outcome quality now dlIdOf v.id
      (getChannels s true) s 0 0 hinv ⟨ch, hch, vids, hok, ⟨v, hv, rfl⟩⟩

/-- The failing source of the C8 witness. -/
def c8ChA : Channel :=
  { id := "A", url := "uA", name := none, enabled := true,
    lastCheckAt := none, createdAt := "t0" }

/-- The healthy source of the C8 witness. -/
def c8ChB : Channel :=
  { id := "B", url := "uB", name := none, enabled := true,
    lastCheckAt := none, createdAt := "t0" }

/-- A store monitoring both sources, knowing no videos. -/
def c8S0 : StorageData :=
  { channels := [c8ChA, c8ChB], videos := [], downloads := [] }

/-- The new item of the C8 witness, published by source B. -/
def c8V : FetchedVideo :=
  { id := "v9", title := "n", url := "u9", thumbnail := "th9",
    duration := none, uploadDate := none }

/-- Listing outcomes of the C8 witness: source A throws, source B
returns one new video. -/
def c8Outcome : Channel → Except Unit (List FetchedVideo) :=
  fun ch => if ch.id == "A" then Except.error () else Except.ok [c8V]

/-- C8 witness: with source A throwing and source B healthy, the pass
counts one error and B's new item ends up discovered and enqueued. -/
theorem scan_isolates_failures_witness :
    c8ChB ∈ getChannels c8S0 true
    ∧ c8Outcome c8ChB = Except.ok [c8V]
    ∧ c8V ∈ [c8V]
    ∧ videoExists c8S0 c8V.id = false
    ∧ ((checkAllChannelsNowPass c8S0 c8Outcome "720p" "t1"
          (fun _ v => v)).2.2 =
        (getChannels c8S0 true).countP (checkFails c8Outcome))
    ∧ (videoExists (checkAllChannelsNowPass c8S0 c8Outcome "720p" "t1"
          (fun _ v => v)).1 c8V.id = true
       ∧ hasPendingOrActive (checkAllChannelsNowPass c8S0 c8Outcome "720p"
          "t1" (fun _ v => v)).1 c8V.id = true) :=
  ⟨by decide, rfl, by simp, by decide,
   (scan_isolates_failures c8S0 c8Outcome "720p" "t1" (fun _ v => v)).1,
   (scan_isolates_failures c8S0 c8Outcome "720p" "t1" (fun _ v => v)).2
     c8ChB [c8V] c8V (by decide) rfl (by simp) (by decide)⟩

/-! ## C2 — the exclusivity invariant over program-reachable stores

`Storage.createDownload` has exactly one caller in the program:
`DownloadQueue.enqueue` (src/server.js line 770), whose only caller is
`MonitoringScheduler.checkChannel` (src/src/scheduler.js line 157) — and
only for videos that passed the `videoExists` novelty filter, right
after `addVideo` registered them (line 154). Videos are never deleted.
Every other download mutation (`updateDownloadStatus` from the queue and
the cleanup sweep, `retryFailedDownload` from the retry endpoint and
`_handleFailure`) modifies an existing record in place and never changes
its `videoId`. Hence at most one download record per video id can ever
exist, which makes the per-item pending/active count at most 1 at every
store state the program produces. -/

/-- The number of download records, of any status, for `videoId`. -/
def countDownloadsFor (s : StorageData) (videoId : String) : Nat :=
  (s.downloads.filter (fun dl => dl.videoId == videoId)).length

/-- A filter by a stronger predicate is at most as long. -/
theorem length_filter_le_of_imp (p q : α → Bool) (l : List α)
    (h : ∀ a, q a = true → p a = true) :
    (l.filter q).length ≤ (l.filter p).length := by
  induction l with
  | nil => exact Nat.le_refl 0
  | cons a as ih =>
    rw [List.filter_cons, List.filter_cons]
    by_cases hq : q a = true
    · rw [if_pos hq, if_pos (h a hq)]
      exact Nat.succ_le_succ ih
    · rw [if_neg hq]
      by_cases hp : p a = true
      · rw [if_pos hp]
        exact Nat.le_succ_of_le ih
      · rw [if_neg hp]
        exact ih
  
/-- `updateFirst` does not change the length of any filter whose
predicate the update preserves. -/
theorem length_filter_updateFirst (p q : α → Bool) (f : α → α)
    (l : List α) (hf : ∀ a, q (f a) = q a) :
    ((updateFirst p f l).filter q).length = (l.filter q).length := by
  induction l with
  | nil => rfl
  | cons a as ih =>
    by_cases hp : p a = true
    · rw [updateFirst, if_pos hp, List.filter_cons, List.filter_cons, hf a]
      cases hq : q a <;> simp
    · have hp' : p a = false := by simpa using hp
      rw [updateFirst, if_neg (by simp [hp']), List.filter_cons,
        List.filter_cons]
      cases hq : q a <;> simp [ih]

/-- Mapping by a function that preserves a predicate does not change the
length of the filter by that predicate. -/
theorem length_filter_map_eq (f : α → α) (q : α → Bool) (l : List α)
    (hf : ∀ a, q (f a) = q a) :
    ((l.map f).filter q).length = (l.filter q).length := by
  induction l with
  | nil => rfl
  | cons a as ih =>
    rw [List.map_cons, List.filter_cons, List.filter_cons, hf a]
    cases hq : q a <;> simp [ih]

/-- Mapping by a function that preserves a predicate does not change
whether `find?` by that predicate succeeds. -/
theorem find?_isSome_map (g : α → α) (q : α → Bool) (l : List α)
    (hg : ∀ a, q (g a) = q a) :
    ((l.map g).find? q).isSome = (l.find? q).isSome := by
  induction l with
  | nil => rfl
  | cons a as ih =>
    rw [List.map_cons]
    by_cases hq : q a = true
    · rw [List.find?_cons_of_pos _ (by rw [hg a]; exact hq),
        List.find?_cons_of_pos _ hq]
      rfl
    · have hq' : q a = false := by simpa using hq
      rw [List.find?_cons_of_neg _ (by simp [hg a, hq']),
        List.find?_cons_of_neg _ (by simp [hq']), ih]

/-- `addChannel` never touches the videos. -/
theorem addChannel_videos (s : StorageData) (url : String)
    (name : Option String) (newId now : String) :
    (addChannel s url name newId now).1.videos = s.videos := by
  rcases hfind : s.channels.find? (fun ch => ch.url == url) with _ | x <;>
    simp only [addChannel, hfind]

/-- `addChannel` never touches the downloads. -/
theorem addChannel_downloads (s : StorageData) (url : String)
    (name : Option String) (newId now : String) :
    (addChannel s url name newId now).1.downloads = s.downloads := by
  rcases hfind : s.channels.find? (fun ch => ch.url == url) with _ | x <;>
    simp only [addChannel, hfind]

/-- The record updater of `updateDownloadStatus` never changes the
`videoId` of the record it rewrites. -/
theorem updateStatusFun_videoId (status : DlStatus) (patch : StatusPatch)
    (now : String) (d : Download) :
    (setTimestamps (applyPatch { d with status := status } patch)
      status now).videoId = d.videoId := by
  simp only [setTimestamps, applyPatch]
  split_ifs <;> rfl

/-- `updateDownloadStatus` preserves the per-video record count. -/
theorem updateDownloadStatus_counts (s : StorageData) (id : String)
    (status : DlStatus) (patch : StatusPatch) (now k : String) :
    countDownloadsFor (updateDownloadStatus s id status patch now) k =
      countDownloadsFor s k := by
  unfold countDownloadsFor updateDownloadStatus
  dsimp only
  exact length_filter_updateFirst _ _ _ _
    (fun d => by rw [updateStatusFun_videoId])

/-- `retryFailedDownload` never touches the videos. -/
theorem retryFailedDownload_videos (s : StorageData) (id : String) :
    (retryFailedDownload s id).1.videos = s.videos := by
  rcases hfind : s.downloads.find? (fun dl => dl.id == id) with _ | dl
  · simp only [retryFailedDownload, hfind]
  · by_cases hrc : dl.retryCount < 2
    · simp only [retryFailedDownload, hfind, if_pos hrc]
    · simp only [retryFailedDownload, hfind, if_neg hrc]

/-- `retryFailedDownload` preserves the per-video record count. -/
theorem retryFailedDownload_counts (s : StorageData) (id k : String) :
    countDownloadsFor (retryFailedDownload s id).1 k =
      countDownloadsFor s k := by
  rcases hfind : s.downloads.find? (fun dl => dl.id == id) with _ | dl
  · simp only [retryFailedDownload, hfind]
  · by_cases hrc : dl.retryCount < 2
    · simp only [retryFailedDownload, hfind, if_pos hrc]
      unfold countDownloadsFor
      dsimp only
      exact length_filter_updateFirst _ _ _ _ (fun d => rfl)
    · simp only [retryFailedDownload, hfind, if_neg hrc]

/-- `_handleFailure` never touches the videos. -/
theorem handleFailure_videos (s : StorageData) (id msg now : String) :
    (handleFailure s id msg now).videos = s.videos := by
  rcases hfind : (getPendingDownloads s 100).find? (fun d => d.id == id)
    with _ | c
  · simp only [handleFailure, hfind]
  · by_cases hrc : c.retryCount < 2
    · simp only [handleFailure, hfind, if_pos hrc]
      exact retryFailedDownload_videos s id
    · simp only [handleFailure, hfind, if_neg hrc]
      rfl

/-- `_handleFailure` preserves the per-video record count. -/
theorem handleFailure_counts (s : StorageData) (id msg now k : String) :
    countDownloadsFor (handleFailure s id msg now) k =
      countDownloadsFor s k := by
  rcases hfind : (getPendingDownloads s 100).find? (fun d => d.id == id)
    with _ | c
  · simp only [handleFailure, hfind]
  · by_cases hrc : c.retryCount < 2
    · simp only [handleFailure, hfind, if_pos hrc]
      exact retryFailedDownload_counts s id k
    · simp only [handleFailure, hfind, if_neg hrc]
      exact updateDownloadStatus_counts s id DlStatus.failed _ now k

/-- The crash-recovery reset preserves the per-video record count. -/
theorem resetDownloading_counts (t : StorageData) (k : String) :
    countDownloadsFor (resetDownloading t) k = countDownloadsFor t k := by
  unfold countDownloadsFor resetDownloading
  dsimp only
  apply length_filter_map_eq
  intro d
  dsimp only
  by_cases hc : (d.status == DlStatus.downloading) = true
  · rw [if_pos hc]
  · rw [if_neg hc]

/-- The id migration does not change which video ids exist (it rewrites
entry values, never keys). -/
theorem migrateVideos_exists (t : StorageData) (k : String) :
    videoExists (migrateVideos t) k = videoExists t k := by
  unfold videoExists migrateVideos
  dsimp only
  apply find?_isSome_map
  intro kv
  dsimp only
  by_cases hc : (kv.2.id == "") = true
  · rw [if_pos hc]
  · rw [if_neg hc]

/-- One per-video discovery step (`addVideo` + `enqueue`, scheduler.js
lines 154-157) preserves, relative to the pre-scan state `s` whose
downloads all belong to existing videos: (i) at most one record per
video, (ii) records only for existing videos, (iii) every record either
predates the scan or is `pending`. The video being processed passed the
novelty filter against `s`. -/
theorem discoveryStep_preserves (s : StorageData) (ch : Channel)
    (q now : String) (dlIdOf : String → String)
    (hs2 : ∀ k, videoExists s k = false → countDownloadsFor s k = 0)
    (st : StorageData) (v : FetchedVideo)
    (hv : videoExists s v.id = false)
    (h1 : ∀ k, countDownloadsFor st k ≤ 1)
    (h2 : ∀ k, videoExists st k = false → countDownloadsFor st k = 0)
    (h3 : ∀ dl ∈ st.downloads, dl ∈ s.downloads ∨ dl.status = DlStatus.pending) :
    (∀ k, countDownloadsFor
        ((enqueue ((addVideo st ch.id v now).1) v.id q (dlIdOf v.id)).1) k ≤ 1)
    ∧ (∀ k, videoExists
        ((enqueue ((addVideo st ch.id v now).1) v.id q (dlIdOf v.id)).1)
          k = false →
        countDownloadsFor
          ((enqueue ((addVideo st ch.id v now).1) v.id q (dlIdOf v.id)).1)
          k = 0)
    ∧ (∀ dl ∈ ((enqueue ((addVideo st ch.id v now).1) v.id q
          (dlIdOf v.id)).1).downloads,
        dl ∈ s.downloads ∨ dl.status = DlStatus.pending) := by
  rw [enqueue_def]
  have hd1 : ((addVideo st ch.id v now).1).downloads = st.downloads :=
    addVideo_downloads st ch.id v now
  have hrev : ∀ k, videoExists ((addVideo st ch.id v now).1) k = false →
      videoExists st k = false := by
    intro k hk
    cases hkk : videoExists st k with
    | false => rfl
    | true =>
      have hmono := addVideo_exists_mono st ch.id v now k hkk
      rw [hk] at hmono
      exact absurd hmono (by simp)
  rcases hfind : ((addVideo st ch.id v now).1).downloads.find?
      (fun dl => dl.videoId == v.id &&
        (dl.status == DlStatus.pending ||
         dl.status == DlStatus.downloading)) with _ | ex
  · -- no pending/active record for v.id yet: a fresh record is appended
    have hres : (createDownload ((addVideo st ch.id v now).1) v.id q
        (dlIdOf v.id)).1.downloads =
        ((addVideo st ch.id v now).1).downloads ++
          [{ id := dlIdOf v.id, videoId := v.id, status := DlStatus.pending,
             quality := q, filePath := none, retryCount := 0,
             errorMessage := none, startedAt := none,
             completedAt := none }] := by
      simp only [createDownload, hfind]
    have hzero : ((addVideo st ch.id v now).1).downloads.filter
        (fun dl => dl.videoId == v.id) = [] := by
      rw [List.filter_eq_nil_iff]
      intro r hr hbeq
      rcases h3 r (by rw [← hd1]; exact hr) with hrs | hrp
      · have hmem : r ∈ s.downloads.filter (fun dl => dl.videoId == v.id) :=
          List.mem_filter.mpr ⟨hrs, hbeq⟩
        have h0 : (s.downloads.filter
            (fun dl => dl.videoId == v.id)).length = 0 := hs2 v.id hv
        have hpos := List.length_pos.mpr (List.ne_nil_of_mem hmem)
        omega
      · exact List.find?_eq_none.mp hfind r hr (by simp [hbeq, hrp])
    have hsing : ∀ (d : Download) (k : String), d.videoId = v.id →
        (v.id == k) = false →
        List.filter (fun dl => dl.videoId == k) [d] = [] := by
      intro d k hd hk
      simp [List.filter, hd, hk]
    refine ⟨fun k => ?_, fun k hk => ?_, fun dl hdl => ?_⟩
    · show (((createDownload _ _ _ _).1).downloads.filter
        (fun dl => dl.videoId == k)).length ≤ 1
      rw [hres, List.filter_append]
      by_cases hkv : k = v.id
      · subst hkv
        rw [hzero, List.nil_append]
        simp [List.filter]
      · have hne : (v.id == k) = false :=
          beq_eq_false_iff_ne.mpr (fun he => hkv he.symm)
        rw [hsing _ _ rfl hne, List.append_nil, hd1]
        exact h1 k
    · have hk1 : videoExists ((addVideo st ch.id v now).1) k = false := by
        rw [← createDownload_exists_eq ((addVideo st ch.id v now).1)
          v.id q (dlIdOf v.id) k]
        exact hk
      have hself := addVideo_exists_self st ch.id v now
      have hkv : k ≠ v.id := by
        intro he
        rw [he, hself] at hk1
        exact absurd hk1 (by simp)
      have hne : (v.id == k) = false :=
        beq_eq_false_iff_ne.mpr (fun he => hkv he.symm)
      show (((createDownload _ _ _ _).1).downloads.filter
        (fun dl => dl.videoId == k)).length = 0
      rw [hres, List.filter_append, hsing _ _ rfl hne, List.append_nil, hd1]
      exact h2 k (hrev k hk1)
    · rw [hres] at hdl
      rcases List.mem_append.mp hdl with hin | hone
      · rw [hd1] at hin
        exact h3 dl hin
      · right
        rw [List.mem_singleton.mp hone]
  · -- a pending/active record for v.id exists: createDownload is a no-op
    have hres : (createDownload ((addVideo st ch.id v now).1) v.id q
        (dlIdOf v.id)).1 = (addVideo st ch.id v now).1 := by
      simp only [createDownload, hfind]
    rw [hres]
    refine ⟨fun k => ?_, fun k hk => ?_, fun dl hdl => ?_⟩
    · show (((addVideo st ch.id v now).1).downloads.filter
        (fun dl => dl.videoId == k)).length ≤ 1
      rw [hd1]
      exact h1 k
    · show (((addVideo st ch.id v now).1).downloads.filter
        (fun dl => dl.videoId == k)).length = 0
      rw [hd1]
      exact h2 k (hrev k hk)
    · rw [hd1] at hdl
      exact h3 dl hdl

/-- The whole discovery fold of a channel check preserves the record
invariants. -/
theorem discoveryFold_preserves (s : StorageData) (ch : Channel)
    (q now : String) (dlIdOf : String → String)
    (hs2 : ∀ k, videoExists s k = false → countDownloadsFor s k = 0) :
    ∀ (l : List FetchedVideo) (st : StorageData),
    (∀ v ∈ l, videoExists s v.id = false) →
    (∀ k, countDownloadsFor st k ≤ 1) →
    (∀ k, videoExists st k = false → countDownloadsFor st k = 0) →
    (∀ dl ∈ st.downloads, dl ∈ s.downloads ∨ dl.status = DlStatus.pending) →
    (∀ k, countDownloadsFor (l.foldl (fun st v =>
        (enqueue ((addVideo st ch.id v now).1) v.id q (dlIdOf v.id)).1) st)
        k ≤ 1)
    ∧ (∀ k, videoExists (l.foldl (fun st v =>
        (enqueue ((addVideo st ch.id v now).1) v.id q (dlIdOf v.id)).1) st)
          k = false →
        countDownloadsFor (l.foldl (fun st v =>
          (enqueue ((addVideo st ch.id v now).1) v.id q (dlIdOf v.id)).1) st)
          k = 0) := by
  intro l
  induction l with
  | nil => exact fun st _ p1 p2 _ => ⟨p1, p2⟩
  | cons v rest ih =>
    intro st hl p1 p2 p3
    rw [List.foldl_cons]
    obtain ⟨q1, q2, q3⟩ := discoveryStep_preserves s ch q now dlIdOf hs2
      st v (hl v (by simp)) p1 p2 p3
    exact ih _ (fun w hw => hl w (by simp [hw])) q1 q2 q3

/-- A whole channel check (`checkChannel`) preserves the record
invariants: the novelty filter runs against the pre-scan state, so every
processed video is new there. -/
theorem checkChannelStep_preserves_inv (s : StorageData) (ch : Channel)
    (vids : List FetchedVideo) (q now : String) (dlIdOf : String → String)
    (h1 : ∀ k, countDownloadsFor s k ≤ 1)
    (h2 : ∀ k, videoExists s k = false → countDownloadsFor s k = 0) :
    (∀ k, countDownloadsFor (checkChannelStep s ch vids q now dlIdOf) k ≤ 1)
    ∧ (∀ k, videoExists (checkChannelStep s ch vids q now dlIdOf) k = false →
        countDownloadsFor (checkChannelStep s ch vids q now dlIdOf) k = 0) := by
  simp only [checkChannelStep]
  have hu1 : ∀ (t : StorageData) (k : String),
      countDownloadsFor (updateChannelLastCheck t ch.id now) k =
        countDownloadsFor t k := fun _ _ => rfl
  have hu2 : ∀ (t : StorageData) (k : String),
      videoExists (updateChannelLastCheck t ch.id now) k =
        videoExists t k := fun _ _ => rfl
  simp only [hu1, hu2]
  exact discoveryFold_preserves s ch q now dlIdOf h2 _ s
    (fun v hv => by
      obtain ⟨_, hp⟩ := List.mem_filter.mp hv
      simpa using hp)
    h1 h2 (fun dl hdl => Or.inl hdl)

/-- One store mutation as the running program actually issues it. The
crucial restriction, read off the call graph: `Storage.createDownload`
and `Storage.addVideo` have no caller outside the scheduler's
`checkChannel` — `createDownload` only via `DownloadQueue.enqueue`
(src/server.js line 770), whose sole caller is src/src/scheduler.js line
157; `addVideo` only at line 154 — so they appear here only inside the
whole-channel-check step `checkChannelDiscovery`. The remaining
constructors cover every other mutation the program performs:
channel management (the `/api/monitor/channels/*` endpoints),
`updateDownloadStatus` from the queue (`'downloading'`, `'completed'`,
`'failed'`) and from the cleanup sweep, `retryFailedDownload` from
`POST /api/downloads/:downloadId/retry` and from `_handleFailure`, and
a process restart, which re-reads the snapshot the program saved
(`init` of `save`, which by `decodeStorage_encodeStorage` is
`migrateVideos ∘ resetDownloading`). Hand-editing the persisted file
outside the program is not a program step. -/
inductive StoreStep : StorageData → StorageData → Prop
  | addChannelStep (s : StorageData) (url : String) (name : Option String)
      (newId now : String) :
      StoreStep s (addChannel s url name newId now).1
  | toggleChannelStep (s : StorageData) (id : String) (enabled : Bool) :
      StoreStep s (toggleChannel s id enabled)
  | removeChannelStep (s : StorageData) (id : String) :
      StoreStep s (removeChannel s id)
  | updateChannelLastCheckStep (s : StorageData) (id now : String) :
      StoreStep s (updateChannelLastCheck s id now)
  | checkChannelDiscovery (s : StorageData) (ch : Channel)
      (vids : List FetchedVideo) (quality now : String)
      (dlIdOf : String → String) :
      StoreStep s (checkChannelStep s ch vids quality now dlIdOf)
  | updateDownloadStatusStep (s : StorageData) (id : String)
      (status : DlStatus) (patch : StatusPatch) (now : String) :
      StoreStep s (updateDownloadStatus s id status patch now)
  | retryStep (s : StorageData) (id : String) :
      StoreStep s (retryFailedDownload s id).1
  | handleFailureStep (s : StorageData) (id msg now : String) :
      StoreStep s (handleFailure s id msg now)
  | restartStep (s : StorageData) :
      StoreStep s (migrateVideos (resetDownloading s))

/-- Store states the running program can produce, starting from the
fresh empty store that `init` creates when no file exists. -/
inductive ReachableStore : StorageData → Prop
  | start : ReachableStore { channels := [], videos := [], downloads := [] }
  | step {s s' : StorageData} : ReachableStore s → StoreStep s s' →
      ReachableStore s'

/-- Invariants transfer along operations that change neither which
videos exist nor any per-video record count. -/
theorem storeInv_transfer (s s' : StorageData)
    (hex : ∀ k, videoExists s' k = videoExists s k)
    (hct : ∀ k, countDownloadsFor s' k = countDownloadsFor s k)
    (h1 : ∀ k, countDownloadsFor s k ≤ 1)
    (h2 : ∀ k, videoExists s k = false → countDownloadsFor s k = 0) :
    (∀ k, countDownloadsFor s' k ≤ 1)
    ∧ (∀ k, videoExists s' k = false → countDownloadsFor s' k = 0) := by
  refine ⟨fun k => ?_, fun k hk => ?_⟩
  · rw [hct]
    exact h1 k
  · rw [hct]
    refine h2 k ?_
    rw [← hex]
    exact hk

/-- Every program-reachable store holds at most one download record per
video, and records only for videos it knows. -/
theorem reachableStore_inv (s : StorageData) (h : ReachableStore s) :
    (∀ k, countDownloadsFor s k ≤ 1)
    ∧ (∀ k, videoExists s k = false → countDownloadsFor s k = 0) := by
  induction h with
  | start => refine ⟨fun k => ?_, fun k _ => ?_⟩ <;> simp [countDownloadsFor]
  | step hr hstep ih =>
    rename_i s0 s1
    obtain ⟨ih1, ih2⟩ := ih
    cases hstep with
    | addChannelStep url name newId now =>
      exact storeInv_transfer s0 _
        (fun k => by unfold videoExists; rw [addChannel_videos])
        (fun k => by unfold countDownloadsFor; rw [addChannel_downloads])
        ih1 ih2
    | toggleChannelStep id enabled =>
      exact storeInv_transfer s0 _ (fun k => rfl) (fun k => rfl) ih1 ih2
    | removeChannelStep id =>
      exact storeInv_transfer s0 _ (fun k => rfl) (fun k => rfl) ih1 ih2
    | updateChannelLastCheckStep id now =>
      exact storeInv_transfer s0 _ (fun k => rfl) (fun k => rfl) ih1 ih2
    | checkChannelDiscovery ch vids quality now dlIdOf =>
      exact checkChannelStep_preserves_inv s0 ch vids quality now dlIdOf
        ih1 ih2
    | updateDownloadStatusStep id status patch now =>
      exact storeInv_transfer s0 _ (fun k => rfl)
        (fun k => updateDownloadStatus_counts s0 id status patch now k)
        ih1 ih2
    | retryStep id =>
      exact storeInv_transfer s0 _
        (fun k => by unfold videoExists; rw [retryFailedDownload_videos])
        (fun k => retryFailedDownload_counts s0 id k) ih1 ih2
    | handleFailureStep id msg now =>
      exact storeInv_transfer s0 _
        (fun k => by unfold videoExists; rw [handleFailure_videos])
        (fun k => handleFailure_counts s0 id msg now k) ih1 ih2
    | restartStep =>
      exact storeInv_transfer s0 _
        (fun k => migrateVideos_exists (resetDownloading s0) k)
        (fun k => resetDownloading_counts s0 k) ih1 ih2

/-- C2: at every store state the running program can reach, each item
has at most one task in state `pending` or `active` (`downloading`);
and `createDownload` invoked while such a task exists creates nothing
and returns that existing task's id. -/
theorem exclusivity_invariant (s : StorageData) (h : ReachableStore s) :
    (∀ k, countPendingActive s k ≤ 1)
    ∧ (∀ (videoId quality newId : String) (dl : Download),
        s.downloads.find? (fun d => d.videoId == videoId &&
          (d.status == DlStatus.pending ||
           d.status == DlStatus.downloading)) = some dl →
        createDownload s videoId quality newId = (s, dl.id)) := by
  constructor
  · intro k
    have hle : countPendingActive s k ≤ countDownloadsFor s k :=
      length_filter_le_of_imp _ _ s.downloads
        (fun a ha => by simp only [Bool.and_eq_true] at ha; exact ha.1)
    exact Nat.le_trans hle ((reachableStore_inv s h).1 k)
  · intro videoId quality newId dl hdl
    unfold createDownload
    rw [hdl]

/-- The channel registered in the C2 witness trace. -/
def c2WCh : Channel :=
  { id := "ch_1", url := "u", name := none, enabled := true,
    lastCheckAt := none, createdAt := "t0" }

/-- The empty store the program starts from. -/
def c2WState0 : StorageData := { channels := [], videos := [], downloads := [] }

/-- The store after registering the channel. -/
def c2WState1 : StorageData :=
  { channels := [c2WCh], videos := [], downloads := [] }

/-- The listing entry the scan discovers. -/
def c2WFetched : FetchedVideo :=
  { id := "v1", title := "a", url := "uv", thumbnail := "th",
    duration := none, uploadDate := none }

/-- The video record the scan stores. -/
def c2WVideo : Video :=
  { id := "v1", channelId := "ch_1", title := "a", url := "uv",
    thumbnail := "th", duration := none, uploadDate := none,
    discoveredAt := "t1" }

/-- The pending download the scan enqueues. -/
def c2WDl : Download :=
  { id := "v1", videoId := "v1", status := DlStatus.pending,
    quality := "720p", filePath := none, retryCount := 0,
    errorMessage := none, startedAt := none, completedAt := none }

/-- The store after the scan: one video, one pending download. -/
def c2WState2 : StorageData :=
  { channels := [{ id := "ch_1", url := "u", name := none, enabled := true,
                   lastCheckAt := some "t1", createdAt := "t0" }],
    videos := [("v1", c2WVideo)], downloads := [c2WDl] }

/-- The witness trace: register a channel, then scan it once. -/
theorem c2w_reachable : ReachableStore c2WState2 :=
  ReachableStore.step
    (ReachableStore.step ReachableStore.start
      (StoreStep.addChannelStep c2WState0 "u" none "ch_1" "t0"))
    (StoreStep.checkChannelDiscovery c2WState1 c2WCh [c2WFetched] "720p"
      "t1" (fun v => v))

/-- C2 witness: the scanned store is program-reachable, satisfies the
bound at the discovered item, and a further `createDownload` for it is a
no-op returning the pending task's id. -/
theorem exclusivity_invariant_witness :
    ReachableStore c2WState2
    ∧ countPendingActive c2WState2 "v1" ≤ 1
    ∧ c2WState2.downloads.find? (fun d => d.videoId == "v1" &&
        (d.status == DlStatus.pending ||
         d.status == DlStatus.downloading)) = some c2WDl
    ∧ createDownload c2WState2 "v1" "720p" "dl_new" = (c2WState2, c2WDl.id) :=
  ⟨c2w_reachable,
   (exclusivity_invariant c2WState2 c2w_reachable).1 "v1",
   by decide,
   (exclusivity_invariant c2WState2 c2w_reachable).2 "v1" "720p" "dl_new"
     c2WDl (by decide)⟩
